import Mathlib

/-!
Shallow embedding of the macrohub input-remapping engine and proofs about it.

The embedding covers:
* the SOCD per-axis conflict-resolution state machine (src/macros/socd.py,
  class `Axis` and the event loop of `SOCDCleaner.loop`),
* the SPACE speed-ramp scheduler of the strafer macro (src/macros/strafer.py,
  `_space_start` / `_space_stop` / `_space_prepare_segment` / `_space_tick`),
* the per-frame velocity update of the motion integrator
  (src/macros/strafer.py, `_move_loop` and the `EASINGS` table),
* the shutdown emission sequences (src/macros/socd.py `_cleanup`,
  src/macros/strafer.py `StraferMacro.stop`).

Python dicts that are keyed by an axis' key list are represented as total
functions `Nat → _` together with the `keys` list, which records the dict's
insertion order (the dict's key set).  Wall-clock instants (`time.monotonic`
and `time.perf_counter` values) are passed in explicitly as exact rationals.
-/

namespace Macrohub

/-- The eight SOCD resolution modes of `src/macros/socd.py`. -/
inductive Mode
  | recent | first | neutral | priority | combine | invert | sticky | toggle
deriving DecidableEq, Repr

/-- State of one axis group (`src/macros/socd.py`, class `Axis`).  The dicts
`down`, `out` and `t0` (all keyed by `keys`) are represented as total
functions; `0` is the sentinel value used by the source for `t0`. -/
structure Axis where
  keys : List Nat
  mode : Mode
  down : Nat → Bool
  out : Nat → Bool
  last : Option Nat
  t0 : Nat → ℚ
  priority : List Nat
  swap_delay : ℚ
  last_switch_time : ℚ
  timeout_neutral : ℚ
  conflict_start : ℚ
  toggle_active : Option Nat

/-- Pointwise update of a function-represented dict. -/
def updFn {α : Type} (f : Nat → α) (k : Nat) (v : α) : Nat → α :=
  fun x => if x = k then v else f x

/-- `Axis._pressed`: the list of currently held keys, in key order. -/
def Axis.pressed (a : Axis) : List Nat :=
  a.keys.filter (fun k => a.down k)

/-- `Axis._pressed_count`. -/
def Axis.pressedCount (a : Axis) : Nat :=
  a.pressed.length

/-- `Axis._debounce_ok`. -/
def Axis.debounce_ok (a : Axis) (now : ℚ) : Bool :=
  if a.swap_delay ≤ 0 then true
  else decide (now - a.last_switch_time ≥ a.swap_delay)

/-- `Axis._note_switch`. -/
def Axis.note_switch (a : Axis) (now : ℚ) : Axis :=
  { a with last_switch_time := now }

/-- `Axis._timeout_neutral_active`. -/
def Axis.timeout_neutral_active (a : Axis) (now : ℚ) : Bool :=
  if a.timeout_neutral ≤ 0 then false
  else if a.pressedCount < 2 then false
  else decide (now - a.conflict_start ≥ a.timeout_neutral)

/-- `Axis.on_key(code, is_down)` at instant `now`. -/
def Axis.on_key (a : Axis) (code : Nat) (is_down : Bool) (now : ℚ) : Axis :=
  if code ∉ a.keys then a
  else if a.mode = Mode.toggle then
    -- toggle mode: act on DOWN edges only, releases are ignored entirely
    if is_down then
      { a with toggle_active :=
          if a.toggle_active = some code then none else some code }
    else a
  else
    -- normal modes
    let a1 := { a with down := updFn a.down code is_down }
    let a2 :=
      if is_down then
        { a1 with last := some code,
                  t0 := if a1.t0 code = 0 then updFn a1.t0 code now else a1.t0 }
      else
        { a1 with t0 := updFn a1.t0 code 0 }
    -- conflict window tracking for timeout_neutral
    if a2.pressedCount ≥ 2 then
      if a2.conflict_start = 0 then { a2 with conflict_start := now } else a2
    else
      { a2 with conflict_start := 0 }

/-- Python `max(l, key := f)`: the first element attaining the maximum. -/
def maxByKey (f : Nat → ℚ) : List Nat → Option Nat
  | [] => none
  | x :: xs => some (xs.foldl (fun b y => if f y > f b then y else b) x)

/-- Python `min(l, key := f)`: the first element attaining the minimum. -/
def minByKey (f : Nat → ℚ) : List Nat → Option Nat
  | [] => none
  | x :: xs => some (xs.foldl (fun b y => if f y < f b then y else b) x)

/-- The "recent" selection `self.last if self.last in pressed else
max(pressed, key=lambda k: self.t0.get(k, 0.0))`.  `pressed` is nonempty at
every use site, so the `getD 0` default of `maxByKey` is never taken. -/
def Axis.chosenRecent (a : Axis) (pressed : List Nat) : Nat :=
  match a.last with
  | some l => if l ∈ pressed then l else (maxByKey a.t0 pressed).getD 0
  | none => (maxByKey a.t0 pressed).getD 0

/-- A dict `{k: f(k) for k in keys}`, as an ordered association list. -/
def mapOf (keys : List Nat) (f : Nat → Bool) : List (Nat × Bool) :=
  keys.map (fun k => (k, f k))

/-- `Axis.pick()` at instant `now`.  Returns the desired output map together
with the post-call state (the call can mutate `last_switch_time` through
`_note_switch`). -/
def Axis.pick (a : Axis) (now : ℚ) : List (Nat × Bool) × Axis :=
  -- combine: mirror all pressed
  if a.mode = Mode.combine then
    (mapOf a.keys (fun k => a.down k), a)
  -- toggle: exclusive toggle
  else if a.mode = Mode.toggle then
    (mapOf a.keys (fun k => a.toggle_active = some k), a)
  -- neutral or timeout-neutral
  else if a.mode = Mode.neutral ∨ a.timeout_neutral_active now then
    if a.pressed.length ≥ 2 then (mapOf a.keys (fun _ => false), a)
    else (mapOf a.keys (fun k => a.pressed.contains k), a)
  -- simple mirror
  else if a.pressed.length ≤ 1 then
    (mapOf a.keys (fun k => a.pressed.contains k), a)
  -- sticky: keep current winner (the first `out`-on key) until all released
  else if a.mode = Mode.sticky then
    match a.keys.find? (fun k => a.out k) with
    | some w =>
      if a.keys.any (fun k => a.down k) then
        (mapOf a.keys (fun k => k == w), a)
      else if ¬ a.debounce_ok now then
        (mapOf a.keys (fun k => k == w), a)
      else
        (mapOf a.keys (fun k => k == a.chosenRecent a.pressed), a.note_switch now)
    | none =>
      if ¬ a.debounce_ok now then
        (mapOf a.keys (fun _ => false), a)
      else
        (mapOf a.keys (fun k => k == a.chosenRecent a.pressed), a.note_switch now)
  -- first: earliest currently-held wins (source key: t0.get(k, 1e9);
  -- every pressed key is a key of t0, so the default is never taken)
  else if a.mode = Mode.first then
    (mapOf a.keys (fun k => k == (minByKey a.t0 a.pressed).getD 0), a)
  -- invert: when 2+ pressed, last loses (so earliest wins)
  else if a.mode = Mode.invert then
    if ¬ a.debounce_ok now then (mapOf a.keys (fun k => a.out k), a)
    else
      (mapOf a.keys (fun k => k == (minByKey a.t0 a.pressed).getD 0),
       if ¬ a.out ((minByKey a.t0 a.pressed).getD 0) then a.note_switch now else a)
  -- priority
  else if a.mode = Mode.priority then
    if ¬ a.debounce_ok now then (mapOf a.keys (fun k => a.out k), a)
    else
      match a.priority.find? (fun k => a.pressed.contains k) with
      | some k =>
        (mapOf a.keys (fun x => x == k),
         if ¬ a.out k then a.note_switch now else a)
      | none =>
        (mapOf a.keys (fun k => k == a.chosenRecent a.pressed),
         if ¬ a.out (a.chosenRecent a.pressed) then a.note_switch now else a)
  -- recent (default): last pressed wins
  else
    if ¬ a.debounce_ok now then (mapOf a.keys (fun k => a.out k), a)
    else
      (mapOf a.keys (fun k => k == a.chosenRecent a.pressed),
       if ¬ a.out (a.chosenRecent a.pressed) then a.note_switch now else a)

/-- Association-list lookup with a default, mirroring dict access. -/
def lookupD {α : Type} (l : List (Nat × α)) (k : Nat) (d : α) : α :=
  match l.find? (fun kv => kv.1 == k) with
  | some kv => kv.2
  | none => d

/-- The main loop's `out` update: after emitting the diff it leaves
`ax.out[k] = want` for every `(k, want)` in the desired map. -/
def Axis.applyOut (a : Axis) (desired : List (Nat × Bool)) : Axis :=
  { a with out := fun k => lookupD desired k (a.out k) }

/-- The transitions the main loop emits for one desired map: only the keys
whose current `out` value differs. -/
def Axis.emitDiff (a : Axis) (desired : List (Nat × Bool)) : List (Nat × Bool) :=
  desired.filter (fun kv => a.out kv.1 != kv.2)

/-- One iteration of the main loop for one axis and one key edge
(`SOCDCleaner.loop`, lines 231-242): `on_key`, then `pick`, then emit only
changes while updating `out`. -/
def Axis.step (a : Axis) (code : Nat) (is_down : Bool) (now : ℚ) :
    Axis × List (Nat × Bool) :=
  let a1 := a.on_key code is_down now
  let pr := a1.pick now
  (pr.2.applyOut pr.1, pr.2.emitDiff pr.1)

/-- Run a sequence of timed key edges through the main loop. -/
def Axis.runEdges (a : Axis) : List (Nat × Bool × ℚ) → Axis
  | [] => a
  | (c, d, t) :: rest => ((a.step c d t).1).runEdges rest

/-- Freshly configured axis (`Axis.__init__`): everything down/off, all
timestamps at the 0 sentinel. -/
def initAxis (keys : List Nat) (mode : Mode) (prio : List Nat)
    (sd tn : ℚ) : Axis :=
  { keys := keys, mode := mode,
    down := fun _ => false, out := fun _ => false,
    last := none, t0 := fun _ => 0,
    priority := prio, swap_delay := sd, last_switch_time := 0,
    timeout_neutral := tn, conflict_start := 0, toggle_active := none }

/-- Number of keys the axis currently reports as output-on. -/
def outCount (a : Axis) : Nat :=
  (a.keys.filter (fun k => a.out k)).length

/-- Number of `true` entries of a desired output map. -/
def mapCount (m : List (Nat × Bool)) : Nat :=
  (m.filter (fun kv => kv.2)).length

/-  The arithmetic on `Rat` in core is marked irreducible; make it
semireducible inside this development so that concrete runs of the embedded
machines can be evaluated by `decide`. -/
attribute [local semireducible] Rat.sub Rat.add Rat.mul Rat.inv

/-! ### Basic facts about the helper functions -/

lemma filter_length_le_one {p : Nat → Bool} {l : List Nat}
    (hu : ∀ x ∈ l, ∀ y ∈ l, p x = true → p y = true → x = y)
    (hnd : l.Nodup) : (l.filter p).length ≤ 1 := by
  induction l with
  | nil => simp
  | cons a l ih =>
    rcases List.nodup_cons.mp hnd with ⟨ha, hl⟩
    by_cases hpa : p a = true
    · have hnil : l.filter p = [] := by
        rw [List.eq_nil_iff_forall_not_mem]
        intro y hy
        have hyl := List.mem_of_mem_filter hy
        have hpy := List.of_mem_filter hy
        have hya : y = a :=
          hu y (List.mem_cons_of_mem a hyl) a (List.mem_cons_self a l) hpy hpa
        exact ha (hya ▸ hyl)
      simp [List.filter_cons, hpa, hnil]
    · simp only [List.filter_cons, hpa, Bool.false_eq_true, if_false]
      exact ih
        (fun x hx y hy => hu x (List.mem_cons_of_mem a hx) y (List.mem_cons_of_mem a hy))
        hl

lemma beq_filter_le_one {keys : List Nat} (hnd : keys.Nodup) (c : Nat) :
    (keys.filter (fun k => k == c)).length ≤ 1 := by
  apply filter_length_le_one _ hnd
  intro x _ y _ hx hy
  rw [beq_iff_eq] at hx hy
  rw [hx, hy]

lemma contains_filter_le_one {keys l : List Nat} (hnd : keys.Nodup)
    (hl : l.length ≤ 1) :
    (keys.filter (fun k => l.contains k)).length ≤ 1 := by
  match l with
  | [] => simp
  | [x] =>
    apply filter_length_le_one _ hnd
    intro u _ v _ hu hv
    simp only [List.contains_cons, List.contains_nil, Bool.or_false, beq_iff_eq] at hu hv
    rw [hu, hv]
  | x :: y :: rest => simp at hl

lemma mapCount_mapOf (keys : List Nat) (f : Nat → Bool) :
    mapCount (mapOf keys f) = (keys.filter f).length := by
  induction keys with
  | nil => rfl
  | cons a l ih =>
    simp only [mapOf, mapCount, List.map_cons, List.filter_cons] at *
    by_cases h : f a <;> simp [h, ih]

lemma lookupD_mapOf (keys : List Nat) (f : Nat → Bool) (k : Nat) (d : Bool)
    (hk : k ∈ keys) : lookupD (mapOf keys f) k d = f k := by
  induction keys with
  | nil => cases hk
  | cons a l ih =>
    simp only [mapOf, List.map_cons, lookupD] at *
    by_cases h : a = k
    · subst h
      rw [List.find?_cons_of_pos]
      simp
    · rw [List.find?_cons_of_neg]
      · rcases List.mem_cons.mp hk with h1 | h2
        · exact absurd h1.symm h
        · exact ih h2
      · simp [h]

/-! ### Field-preservation facts -/

@[simp] lemma applyOut_keys (a : Axis) (m : List (Nat × Bool)) :
    (a.applyOut m).keys = a.keys := rfl

@[simp] lemma applyOut_mode (a : Axis) (m : List (Nat × Bool)) :
    (a.applyOut m).mode = a.mode := rfl

@[simp] lemma applyOut_down (a : Axis) (m : List (Nat × Bool)) :
    (a.applyOut m).down = a.down := rfl

@[simp] lemma applyOut_out (a : Axis) (m : List (Nat × Bool)) (k : Nat) :
    (a.applyOut m).out k = lookupD m k (a.out k) := rfl

@[simp] lemma note_switch_keys (a : Axis) (t : ℚ) :
    (a.note_switch t).keys = a.keys := rfl

@[simp] lemma note_switch_mode (a : Axis) (t : ℚ) :
    (a.note_switch t).mode = a.mode := rfl

@[simp] lemma note_switch_out (a : Axis) (t : ℚ) :
    (a.note_switch t).out = a.out := rfl

@[simp] lemma note_switch_down (a : Axis) (t : ℚ) :
    (a.note_switch t).down = a.down := rfl

lemma on_key_keys (a : Axis) (c : Nat) (d : Bool) (t : ℚ) :
    (a.on_key c d t).keys = a.keys := by
  unfold Axis.on_key
  dsimp only
  split_ifs <;> rfl

lemma on_key_mode (a : Axis) (c : Nat) (d : Bool) (t : ℚ) :
    (a.on_key c d t).mode = a.mode := by
  unfold Axis.on_key
  dsimp only
  split_ifs <;> rfl

lemma on_key_out (a : Axis) (c : Nat) (d : Bool) (t : ℚ) :
    (a.on_key c d t).out = a.out := by
  unfold Axis.on_key
  dsimp only
  split_ifs <;> rfl

/-- Case-analysis principle for `Axis.pick`: one case per reachable leaf of
the source's branch structure, each carrying that leaf's guard facts.  The
sticky sub-branches where a winner exists but no key is down are unreachable
here because the sticky leaf is only entered with 2 or more keys pressed. -/
lemma pick_elim (a : Axis) (now : ℚ) {P : List (Nat × Bool) × Axis → Prop}
    (hcombine : a.mode = Mode.combine →
      P (mapOf a.keys (fun k => a.down k), a))
    (htoggle : a.mode = Mode.toggle →
      P (mapOf a.keys (fun k => a.toggle_active = some k), a))
    (hneutral2 : a.mode ≠ Mode.combine → a.mode ≠ Mode.toggle →
      (a.mode = Mode.neutral ∨ a.timeout_neutral_active now = true) →
      a.pressed.length ≥ 2 →
      P (mapOf a.keys (fun _ => false), a))
    (hneutral1 : a.mode ≠ Mode.combine → a.mode ≠ Mode.toggle →
      (a.mode = Mode.neutral ∨ a.timeout_neutral_active now = true) →
      ¬ a.pressed.length ≥ 2 →
      P (mapOf a.keys (fun k => a.pressed.contains k), a))
    (hmirror : a.mode ≠ Mode.combine → a.mode ≠ Mode.toggle →
      ¬ (a.mode = Mode.neutral ∨ a.timeout_neutral_active now = true) →
      a.pressed.length ≤ 1 →
      P (mapOf a.keys (fun k => a.pressed.contains k), a))
    (hsticky : a.mode = Mode.sticky →
      a.timeout_neutral_active now = false → ¬ a.pressed.length ≤ 1 →
      ∀ w, a.keys.find? (fun k => a.out k) = some w →
      P (mapOf a.keys (fun k => k == w), a))
    (hstickyNF : a.mode = Mode.sticky →
      a.timeout_neutral_active now = false → ¬ a.pressed.length ≤ 1 →
      a.keys.find? (fun k => a.out k) = none → a.debounce_ok now = false →
      P (mapOf a.keys (fun _ => false), a))
    (hstickyNG : a.mode = Mode.sticky →
      a.timeout_neutral_active now = false → ¬ a.pressed.length ≤ 1 →
      a.keys.find? (fun k => a.out k) = none → a.debounce_ok now = true →
      P (mapOf a.keys (fun k => k == a.chosenRecent a.pressed), a.note_switch now))
    (hfirst : a.mode = Mode.first →
      a.timeout_neutral_active now = false → ¬ a.pressed.length ≤ 1 →
      P (mapOf a.keys (fun k => k == (minByKey a.t0 a.pressed).getD 0), a))
    (hinvertF : a.mode = Mode.invert →
      a.timeout_neutral_active now = false → ¬ a.pressed.length ≤ 1 →
      a.debounce_ok now = false →
      P (mapOf a.keys (fun k => a.out k), a))
    (hinvertG : a.mode = Mode.invert →
      a.timeout_neutral_active now = false → ¬ a.pressed.length ≤ 1 →
      a.debounce_ok now = true →
      P (mapOf a.keys (fun k => k == (minByKey a.t0 a.pressed).getD 0),
         if ¬ a.out ((minByKey a.t0 a.pressed).getD 0) then a.note_switch now else a))
    (hprioF : a.mode = Mode.priority →
      a.timeout_neutral_active now = false → ¬ a.pressed.length ≤ 1 →
      a.debounce_ok now = false →
      P (mapOf a.keys (fun k => a.out k), a))
    (hprioS : a.mode = Mode.priority →
      a.timeout_neutral_active now = false → ¬ a.pressed.length ≤ 1 →
      a.debounce_ok now = true →
      ∀ k, a.priority.find? (fun k => a.pressed.contains k) = some k →
      P (mapOf a.keys (fun x => x == k),
         if ¬ a.out k then a.note_switch now else a))
    (hprioN : a.mode = Mode.priority →
      a.timeout_neutral_active now = false → ¬ a.pressed.length ≤ 1 →
      a.debounce_ok now = true →
      a.priority.find? (fun k => a.pressed.contains k) = none →
      P (mapOf a.keys (fun k => k == a.chosenRecent a.pressed),
         if ¬ a.out (a.chosenRecent a.pressed) then a.note_switch now else a))
    (hrecentF : a.mode = Mode.recent →
      a.timeout_neutral_active now = false → ¬ a.pressed.length ≤ 1 →
      a.debounce_ok now = false →
      P (mapOf a.keys (fun k => a.out k), a))
    (hrecentG : a.mode = Mode.recent →
      a.timeout_neutral_active now = false → ¬ a.pressed.length ≤ 1 →
      a.debounce_ok now = true →
      P (mapOf a.keys (fun k => k == a.chosenRecent a.pressed),
         if ¬ a.out (a.chosenRecent a.pressed) then a.note_switch now else a)) :
    P (a.pick now) := by
  rw [Axis.pick]
  by_cases h1 : a.mode = Mode.combine
  · rw [if_pos h1]; exact hcombine h1
  rw [if_neg h1]
  by_cases h2 : a.mode = Mode.toggle
  · rw [if_pos h2]; exact htoggle h2
  rw [if_neg h2]
  by_cases h3 : a.mode = Mode.neutral ∨ a.timeout_neutral_active now = true
  · rw [if_pos h3]
    by_cases h4 : a.pressed.length ≥ 2
    · rw [if_pos h4]; exact hneutral2 h1 h2 h3 h4
    · rw [if_neg h4]; exact hneutral1 h1 h2 h3 h4
  rw [if_neg h3]
  have hto : a.timeout_neutral_active now = false := by
    rcases Bool.eq_false_or_eq_true (a.timeout_neutral_active now) with h | h
    · exact absurd (Or.inr h) h3
    · exact h
  by_cases h5 : a.pressed.length ≤ 1
  · rw [if_pos h5]; exact hmirror h1 h2 h3 h5
  rw [if_neg h5]
  by_cases h6 : a.mode = Mode.sticky
  · rw [if_pos h6]
    cases hw : a.keys.find? (fun k => a.out k) with
    | none =>
      dsimp only
      by_cases hd : a.debounce_ok now = true
      · rw [if_neg (by simp [hd])]
        exact hstickyNG h6 hto h5 hw hd
      · rw [if_pos (by simpa using hd)]
        exact hstickyNF h6 hto h5 hw (by simpa using hd)
    | some w =>
      dsimp only
      have hany : a.keys.any (fun k => a.down k) = true := by
        have hne : a.pressed ≠ [] := by
          intro hnil
          exact h5 (by simp [hnil])
        rcases List.exists_mem_of_ne_nil _ hne with ⟨x, hx⟩
        have hxk := List.mem_of_mem_filter hx
        have hxd := List.of_mem_filter hx
        exact List.any_eq_true.mpr ⟨x, hxk, hxd⟩
      rw [if_pos hany]
      exact hsticky h6 hto h5 w hw
  rw [if_neg h6]
  by_cases h7 : a.mode = Mode.first
  · rw [if_pos h7]; exact hfirst h7 hto h5
  rw [if_neg h7]
  by_cases h8 : a.mode = Mode.invert
  · rw [if_pos h8]
    by_cases hd : a.debounce_ok now = true
    · rw [if_neg (by simp [hd])]
      exact hinvertG h8 hto h5 hd
    · rw [if_pos (by simpa using hd)]
      exact hinvertF h8 hto h5 (by simpa using hd)
  rw [if_neg h8]
  by_cases h9 : a.mode = Mode.priority
  · rw [if_pos h9]
    by_cases hd : a.debounce_ok now = true
    · rw [if_neg (by simp [hd])]
      cases hf : a.priority.find? (fun k => a.pressed.contains k) with
      | none => exact hprioN h9 hto h5 hd hf
      | some k => exact hprioS h9 hto h5 hd k hf
    · rw [if_pos (by simpa using hd)]
      exact hprioF h9 hto h5 (by simpa using hd)
  rw [if_neg h9]
  have h10 : a.mode = Mode.recent := by
    cases hmode : a.mode <;> simp_all
  by_cases hd : a.debounce_ok now = true
  · rw [if_neg (by simp [hd])]
    exact hrecentG h10 hto h5 hd
  · rw [if_pos (by simpa using hd)]
    exact hrecentF h10 hto h5 (by simpa using hd)

lemma pick_snd (a : Axis) (now : ℚ) :
    (a.pick now).2 = a ∨ (a.pick now).2 = a.note_switch now := by
  apply pick_elim (P := fun x => x.2 = a ∨ x.2 = a.note_switch now) <;>
    intros <;>
    first
      | (left; rfl)
      | (right; rfl)
      | (split_ifs <;> first | (left; rfl) | (right; rfl))

lemma pick_shape (a : Axis) (now : ℚ) :
    ∃ f, (a.pick now).1 = mapOf a.keys f := by
  apply pick_elim (P := fun x => ∃ f, x.1 = mapOf a.keys f) <;>
    intros <;> exact ⟨_, rfl⟩

/-- Outside combine/toggle, every map `pick` can produce has at most one
`true` entry (given the same bound for the current `out` state, which the
copy-returning debounce branches hand back). -/
lemma pick_fst_count (a : Axis) (now : ℚ) (hnd : a.keys.Nodup)
    (hc : a.mode ≠ Mode.combine) (ht : a.mode ≠ Mode.toggle)
    (hout : outCount a ≤ 1) : mapCount (a.pick now).1 ≤ 1 := by
  have hfalse : mapCount (mapOf a.keys (fun _ => false)) ≤ 1 := by
    simp [mapCount_mapOf]
  have hcopy : mapCount (mapOf a.keys (fun k => a.out k)) ≤ 1 := by
    rw [mapCount_mapOf]; exact hout
  have hbeq : ∀ c : Nat, mapCount (mapOf a.keys (fun k => k == c)) ≤ 1 := by
    intro c; rw [mapCount_mapOf]; exact beq_filter_le_one hnd c
  have hmir : ∀ l : List Nat, l.length ≤ 1 →
      mapCount (mapOf a.keys (fun k => l.contains k)) ≤ 1 := by
    intro l hl; rw [mapCount_mapOf]; exact contains_filter_le_one hnd hl
  refine pick_elim a now (P := fun x => mapCount x.1 ≤ 1)
    ?_ ?_ ?_ ?_ ?_ ?_ ?_ ?_ ?_ ?_ ?_ ?_ ?_ ?_ ?_ ?_
  · exact fun h => absurd h hc
  · exact fun h => absurd h ht
  · exact fun _ _ _ _ => hfalse
  · exact fun _ _ _ h4 => hmir _ (by omega)
  · exact fun _ _ _ h5 => hmir _ h5
  · exact fun _ _ _ w _ => hbeq w
  · exact fun _ _ _ _ _ => hfalse
  · exact fun _ _ _ _ _ => hbeq _
  · exact fun _ _ _ => hbeq _
  · exact fun _ _ _ _ => hcopy
  · exact fun _ _ _ _ => hbeq _
  · exact fun _ _ _ _ => hcopy
  · exact fun _ _ _ _ k _ => hbeq k
  · exact fun _ _ _ _ _ => hbeq _
  · exact fun _ _ _ _ => hcopy
  · exact fun _ _ _ _ => hbeq _

lemma outCount_applyOut (b : Axis) (f : Nat → Bool) :
    outCount (b.applyOut (mapOf b.keys f)) = (b.keys.filter f).length := by
  unfold outCount
  simp only [applyOut_keys]
  refine congrArg List.length (List.filter_congr ?_)
  intro k hk
  simp only [applyOut_out]
  exact lookupD_mapOf _ _ _ _ hk

lemma step_keys (a : Axis) (c : Nat) (d : Bool) (t : ℚ) :
    (a.step c d t).1.keys = a.keys := by
  unfold Axis.step
  dsimp only
  rcases pick_snd (a.on_key c d t) t with h | h <;>
    rw [h] <;> simp [on_key_keys]

lemma step_mode (a : Axis) (c : Nat) (d : Bool) (t : ℚ) :
    (a.step c d t).1.mode = a.mode := by
  unfold Axis.step
  dsimp only
  rcases pick_snd (a.on_key c d t) t with h | h <;>
    rw [h] <;> simp [on_key_mode]

lemma step_outCount (a : Axis) (c : Nat) (d : Bool) (t : ℚ)
    (hnd : a.keys.Nodup) (hc : a.mode ≠ Mode.combine) (ht : a.mode ≠ Mode.toggle)
    (hout : outCount a ≤ 1) : outCount (a.step c d t).1 ≤ 1 := by
  unfold Axis.step
  dsimp only
  have hk1 : (a.on_key c d t).keys = a.keys := on_key_keys a c d t
  have hm1 : (a.on_key c d t).mode = a.mode := on_key_mode a c d t
  have ho1 : (a.on_key c d t).out = a.out := on_key_out a c d t
  have hout1 : outCount (a.on_key c d t) ≤ 1 := by
    unfold outCount
    rw [hk1, ho1]
    exact hout
  have hcount := pick_fst_count (a.on_key c d t) t (hk1 ▸ hnd)
    (hm1 ▸ hc) (hm1 ▸ ht) hout1
  obtain ⟨f, hf⟩ := pick_shape (a.on_key c d t) t
  rw [hf, mapCount_mapOf] at hcount
  rcases pick_snd (a.on_key c d t) t with h2 | h2 <;> rw [hf, h2]
  · rw [outCount_applyOut]
    exact hcount
  · have heq := outCount_applyOut ((a.on_key c d t).note_switch t) f
    rw [note_switch_keys] at heq
    rw [heq]
    exact hcount

lemma runEdges_keys (a : Axis) (edges : List (Nat × Bool × ℚ)) :
    (a.runEdges edges).keys = a.keys := by
  induction edges generalizing a with
  | nil => rfl
  | cons e rest ih =>
    obtain ⟨c, d, t⟩ := e
    rw [Axis.runEdges, ih, step_keys]

lemma runEdges_mode (a : Axis) (edges : List (Nat × Bool × ℚ)) :
    (a.runEdges edges).mode = a.mode := by
  induction edges generalizing a with
  | nil => rfl
  | cons e rest ih =>
    obtain ⟨c, d, t⟩ := e
    rw [Axis.runEdges, ih, step_mode]

lemma runEdges_outCount (a : Axis) (edges : List (Nat × Bool × ℚ))
    (hnd : a.keys.Nodup) (hc : a.mode ≠ Mode.combine)
    (ht : a.mode ≠ Mode.toggle) (hout : outCount a ≤ 1) :
    outCount (a.runEdges edges) ≤ 1 := by
  induction edges generalizing a with
  | nil => exact hout
  | cons e rest ih =>
    obtain ⟨c, d, t⟩ := e
    rw [Axis.runEdges]
    exact ih _ ((step_keys a c d t).symm ▸ hnd)
      ((step_mode a c d t).symm ▸ hc) ((step_mode a c d t).symm ▸ ht)
      (step_outCount a c d t hnd hc ht hout)

/-- C1: for every axis whose mode is neither combine nor toggle, after any
sequence of `on_key` edges each followed by `pick()` with `out` updated from
the result as the main loop does, at most one key of the group has
`out = true`. -/
theorem socd_exclusive_output (keys : List Nat) (mode : Mode)
    (prio : List Nat) (sd tn : ℚ) (edges : List (Nat × Bool × ℚ))
    (hnd : keys.Nodup) (hc : mode ≠ Mode.combine) (ht : mode ≠ Mode.toggle) :
    outCount ((initAxis keys mode prio sd tn).runEdges edges) ≤ 1 := by
  apply runEdges_outCount
  · exact hnd
  · exact hc
  · exact ht
  · simp [outCount, initAxis]

/-- Witness for C1 at a concrete axis and edge sequence. -/
theorem socd_exclusive_output_witness :
    [0, 1].Nodup ∧ Mode.recent ≠ Mode.combine ∧ Mode.recent ≠ Mode.toggle ∧
    outCount ((initAxis [0, 1] Mode.recent [] 0 0).runEdges
      [(0, true, 1), (1, true, 2)]) ≤ 1 :=
  ⟨by decide, by decide, by decide,
   socd_exclusive_output [0, 1] Mode.recent [] 0 0 [(0, true, 1), (1, true, 2)]
     (by decide) (by decide) (by decide)⟩

/-- C8: in combine mode, after every on_key/pick step of the main loop, the
output map mirrors `down` on every key of the group. -/
theorem combine_out_mirrors_down (a : Axis) (code : Nat) (d : Bool) (t : ℚ)
    (hm : a.mode = Mode.combine) :
    ∀ k ∈ a.keys, (a.step code d t).1.out k = (a.step code d t).1.down k := by
  intro k hk
  unfold Axis.step
  dsimp only
  have hm1 : (a.on_key code d t).mode = Mode.combine := by
    rw [on_key_mode]; exact hm
  have hpick : (a.on_key code d t).pick t =
      (mapOf (a.on_key code d t).keys (fun x => (a.on_key code d t).down x),
       a.on_key code d t) := by
    rw [Axis.pick, if_pos hm1]
  rw [hpick]
  simp only [applyOut_down, applyOut_out]
  exact lookupD_mapOf _ _ _ _ ((on_key_keys a code d t).symm ▸ hk)

/-! ### Leaf equations for `pick` and further helper lemmas -/

lemma find?_congr_mem {p q : Nat → Bool} {l : List Nat}
    (h : ∀ k ∈ l, p k = q k) : l.find? p = l.find? q := by
  induction l with
  | nil => rfl
  | cons a l ih =>
    have ha := h a (List.mem_cons_self a l)
    by_cases hq : q a = true
    · rw [List.find?_cons_of_pos _ (ha ▸ hq), List.find?_cons_of_pos _ hq]
    · rw [List.find?_cons_of_neg _ (by simp [ha, hq]),
        List.find?_cons_of_neg _ (by simp [hq])]
      exact ih fun k hk => h k (List.mem_cons_of_mem a hk)

lemma find?_beq_self {l : List Nat} {w : Nat} (hw : w ∈ l) :
    l.find? (fun k => k == w) = some w := by
  induction l with
  | nil => cases hw
  | cons a l ih =>
    by_cases h : a = w
    · subst h
      rw [List.find?_cons_of_pos _ (by simp)]
    · rw [List.find?_cons_of_neg _ (by simp [h])]
      rcases List.mem_cons.mp hw with h1 | h1
      · exact absurd h1.symm h
      · exact ih h1

lemma find?_false (l : List Nat) :
    l.find? (fun _ => false) = none :=
  List.find?_eq_none.mpr (fun _ _ => by simp)

lemma mapOf_lookup (keys : List Nat) (f g : Nat → Bool) :
    mapOf keys (fun k => lookupD (mapOf keys f) k (g k)) = mapOf keys f := by
  unfold mapOf
  refine List.map_congr_left ?_
  intro k hk
  have h := lookupD_mapOf keys f k (g k) hk
  simp only [mapOf] at h
  simpa using h

lemma foldl_pickBy_mem (c : Nat → Nat → Bool) (xs : List Nat) (x : Nat) :
    xs.foldl (fun b y => if c y b then y else b) x ∈ x :: xs := by
  induction xs generalizing x with
  | nil => simp
  | cons z zs ih =>
    rw [List.foldl_cons]
    rcases List.mem_cons.mp (ih (if c z x then z else x)) with h | h
    · rw [h]
      by_cases hc : c z x = true <;> simp [hc, List.mem_cons]
    · simp [List.mem_cons.mpr (Or.inr (List.mem_cons.mpr (Or.inr h)))]

lemma maxByKey_mem (f : Nat → ℚ) {l : List Nat} (h : l ≠ []) :
    (maxByKey f l).getD 0 ∈ l := by
  match l with
  | [] => exact absurd rfl h
  | x :: xs =>
    have := foldl_pickBy_mem (fun y b => decide (f y > f b)) xs x
    simpa [maxByKey] using this

lemma chosenRecent_mem (a : Axis) {l : List Nat} (h : l ≠ []) :
    a.chosenRecent l ∈ l := by
  unfold Axis.chosenRecent
  rcases hlast : a.last with _ | k
  · exact maxByKey_mem a.t0 h
  · by_cases hk : k ∈ l
    · simp [hk]
    · simpa [hk] using maxByKey_mem a.t0 h

lemma any_down_of_conflict (a : Axis) (h4 : ¬ a.pressed.length ≤ 1) :
    a.keys.any (fun k => a.down k) = true := by
  have hne : a.pressed ≠ [] := by
    intro hnil
    exact h4 (by simp [hnil])
  rcases List.exists_mem_of_ne_nil _ hne with ⟨x, hx⟩
  exact List.any_eq_true.mpr
    ⟨x, List.mem_of_mem_filter hx, List.of_mem_filter hx⟩

lemma pressed_subset_keys (a : Axis) : a.pressed ⊆ a.keys := by
  intro x hx
  exact List.mem_of_mem_filter hx

lemma note_debounce_pos (a : Axis) (now : ℚ) (h : ¬ a.swap_delay ≤ 0) :
    (a.note_switch now).debounce_ok now = false := by
  have hsd : (a.note_switch now).swap_delay = a.swap_delay := rfl
  have hlsw : (a.note_switch now).last_switch_time = now := rfl
  unfold Axis.debounce_ok
  rw [hsd, hlsw, if_neg h, decide_eq_false_iff_not]
  intro hge
  rw [sub_self] at hge
  exact h hge

lemma note_debounce_nonpos (a : Axis) (now : ℚ) (h : a.swap_delay ≤ 0) :
    (a.note_switch now).debounce_ok now = true := by
  unfold Axis.debounce_ok Axis.note_switch
  rw [if_pos h]

@[simp] lemma applyOut_t0 (a : Axis) (m : List (Nat × Bool)) :
    (a.applyOut m).t0 = a.t0 := rfl

@[simp] lemma applyOut_last (a : Axis) (m : List (Nat × Bool)) :
    (a.applyOut m).last = a.last := rfl

@[simp] lemma applyOut_priority (a : Axis) (m : List (Nat × Bool)) :
    (a.applyOut m).priority = a.priority := rfl

@[simp] lemma applyOut_toggle (a : Axis) (m : List (Nat × Bool)) :
    (a.applyOut m).toggle_active = a.toggle_active := rfl

@[simp] lemma applyOut_pressed (a : Axis) (m : List (Nat × Bool)) :
    (a.applyOut m).pressed = a.pressed := rfl

@[simp] lemma applyOut_timeoutAct (a : Axis) (m : List (Nat × Bool)) (now : ℚ) :
    (a.applyOut m).timeout_neutral_active now = a.timeout_neutral_active now := rfl

@[simp] lemma applyOut_debounce (a : Axis) (m : List (Nat × Bool)) (now : ℚ) :
    (a.applyOut m).debounce_ok now = a.debounce_ok now := rfl

@[simp] lemma applyOut_chosenRecent (a : Axis) (m : List (Nat × Bool))
    (l : List Nat) : (a.applyOut m).chosenRecent l = a.chosenRecent l := rfl

@[simp] lemma note_t0 (a : Axis) (t : ℚ) : (a.note_switch t).t0 = a.t0 := rfl

@[simp] lemma note_last (a : Axis) (t : ℚ) : (a.note_switch t).last = a.last := rfl

@[simp] lemma note_priority (a : Axis) (t : ℚ) :
    (a.note_switch t).priority = a.priority := rfl

@[simp] lemma note_toggle (a : Axis) (t : ℚ) :
    (a.note_switch t).toggle_active = a.toggle_active := rfl

@[simp] lemma note_pressed (a : Axis) (t : ℚ) :
    (a.note_switch t).pressed = a.pressed := rfl

@[simp] lemma note_timeoutAct (a : Axis) (t now : ℚ) :
    (a.note_switch t).timeout_neutral_active now
      = a.timeout_neutral_active now := rfl

@[simp] lemma note_chosenRecent (a : Axis) (t : ℚ) (l : List Nat) :
    (a.note_switch t).chosenRecent l = a.chosenRecent l := rfl

@[simp] lemma applyOut_sd (a : Axis) (m : List (Nat × Bool)) :
    (a.applyOut m).swap_delay = a.swap_delay := rfl

@[simp] lemma applyOut_lsw (a : Axis) (m : List (Nat × Bool)) :
    (a.applyOut m).last_switch_time = a.last_switch_time := rfl

@[simp] lemma applyOut_tn (a : Axis) (m : List (Nat × Bool)) :
    (a.applyOut m).timeout_neutral = a.timeout_neutral := rfl

@[simp] lemma applyOut_cs (a : Axis) (m : List (Nat × Bool)) :
    (a.applyOut m).conflict_start = a.conflict_start := rfl

@[simp] lemma applyOut_out_fn (a : Axis) (m : List (Nat × Bool)) :
    (a.applyOut m).out = fun k => lookupD m k (a.out k) := rfl

@[simp] lemma note_sd (a : Axis) (t : ℚ) :
    (a.note_switch t).swap_delay = a.swap_delay := rfl

@[simp] lemma note_tn (a : Axis) (t : ℚ) :
    (a.note_switch t).timeout_neutral = a.timeout_neutral := rfl

@[simp] lemma note_cs (a : Axis) (t : ℚ) :
    (a.note_switch t).conflict_start = a.conflict_start := rfl

lemma pick_eq_combine (a : Axis) (now : ℚ) (h : a.mode = Mode.combine) :
    a.pick now = (mapOf a.keys (fun k => a.down k), a) := by
  rw [Axis.pick, if_pos h]

lemma pick_eq_toggle (a : Axis) (now : ℚ) (h : a.mode = Mode.toggle) :
    a.pick now = (mapOf a.keys (fun k => a.toggle_active = some k), a) := by
  rw [Axis.pick, if_neg (by simp [h]), if_pos h]

lemma pick_eq_neutral2 (a : Axis) (now : ℚ)
    (h1 : a.mode ≠ Mode.combine) (h2 : a.mode ≠ Mode.toggle)
    (h3 : a.mode = Mode.neutral ∨ a.timeout_neutral_active now = true)
    (h4 : a.pressed.length ≥ 2) :
    a.pick now = (mapOf a.keys (fun _ => false), a) := by
  rw [Axis.pick, if_neg h1, if_neg h2, if_pos h3, if_pos h4]

lemma pick_eq_neutral1 (a : Axis) (now : ℚ)
    (h1 : a.mode ≠ Mode.combine) (h2 : a.mode ≠ Mode.toggle)
    (h3 : a.mode = Mode.neutral ∨ a.timeout_neutral_active now = true)
    (h4 : ¬ a.pressed.length ≥ 2) :
    a.pick now = (mapOf a.keys (fun k => a.pressed.contains k), a) := by
  rw [Axis.pick, if_neg h1, if_neg h2, if_pos h3, if_neg h4]

lemma pick_eq_mirror (a : Axis) (now : ℚ)
    (h1 : a.mode ≠ Mode.combine) (h2 : a.mode ≠ Mode.toggle)
    (h3 : ¬ (a.mode = Mode.neutral ∨ a.timeout_neutral_active now = true))
    (h4 : a.pressed.length ≤ 1) :
    a.pick now = (mapOf a.keys (fun k => a.pressed.contains k), a) := by
  rw [Axis.pick, if_neg h1, if_neg h2, if_neg h3, if_pos h4]

lemma pick_eq_sticky_keep (a : Axis) (now : ℚ) (hm : a.mode = Mode.sticky)
    (h3 : a.timeout_neutral_active now = false) (h4 : ¬ a.pressed.length ≤ 1)
    (w : Nat) (hw : a.keys.find? (fun k => a.out k) = some w)
    (hany : a.keys.any (fun k => a.down k) = true) :
    a.pick now = (mapOf a.keys (fun k => k == w), a) := by
  rw [Axis.pick, if_neg (by simp [hm]), if_neg (by simp [hm]),
    if_neg (by simp [hm, h3]), if_neg h4, if_pos hm, hw]
  dsimp only
  rw [if_pos hany]

lemma pick_eq_sticky_none_fail (a : Axis) (now : ℚ) (hm : a.mode = Mode.sticky)
    (h3 : a.timeout_neutral_active now = false) (h4 : ¬ a.pressed.length ≤ 1)
    (hw : a.keys.find? (fun k => a.out k) = none)
    (hd : a.debounce_ok now = false) :
    a.pick now = (mapOf a.keys (fun _ => false), a) := by
  rw [Axis.pick, if_neg (by simp [hm]), if_neg (by simp [hm]),
    if_neg (by simp [hm, h3]), if_neg h4, if_pos hm, hw]
  dsimp only
  rw [if_pos (by simp [hd])]

lemma pick_eq_sticky_none_go (a : Axis) (now : ℚ) (hm : a.mode = Mode.sticky)
    (h3 : a.timeout_neutral_active now = false) (h4 : ¬ a.pressed.length ≤ 1)
    (hw : a.keys.find? (fun k => a.out k) = none)
    (hd : a.debounce_ok now = true) :
    a.pick now = (mapOf a.keys (fun k => k == a.chosenRecent a.pressed),
      a.note_switch now) := by
  rw [Axis.pick, if_neg (by simp [hm]), if_neg (by simp [hm]),
    if_neg (by simp [hm, h3]), if_neg h4, if_pos hm, hw]
  dsimp only
  rw [if_neg (by simp [hd])]

lemma pick_eq_first (a : Axis) (now : ℚ) (hm : a.mode = Mode.first)
    (h3 : a.timeout_neutral_active now = false)
    (h4 : ¬ a.pressed.length ≤ 1) :
    a.pick now =
      (mapOf a.keys (fun k => k == (minByKey a.t0 a.pressed).getD 0), a) := by
  rw [Axis.pick, if_neg (by simp [hm]), if_neg (by simp [hm]),
    if_neg (by simp [hm, h3]), if_neg h4, if_neg (by simp [hm]), if_pos hm]

lemma pick_eq_invert_fail (a : Axis) (now : ℚ) (hm : a.mode = Mode.invert)
    (h3 : a.timeout_neutral_active now = false) (h4 : ¬ a.pressed.length ≤ 1)
    (hd : a.debounce_ok now = false) :
    a.pick now = (mapOf a.keys (fun k => a.out k), a) := by
  rw [Axis.pick, if_neg (by simp [hm]), if_neg (by simp [hm]),
    if_neg (by simp [hm, h3]), if_neg h4, if_neg (by simp [hm]),
    if_neg (by simp [hm]), if_pos hm, if_pos (by simp [hd])]

lemma pick_eq_invert_go (a : Axis) (now : ℚ) (hm : a.mode = Mode.invert)
    (h3 : a.timeout_neutral_active now = false) (h4 : ¬ a.pressed.length ≤ 1)
    (hd : a.debounce_ok now = true) :
    a.pick now =
      (mapOf a.keys (fun k => k == (minByKey a.t0 a.pressed).getD 0),
       if ¬ a.out ((minByKey a.t0 a.pressed).getD 0)
       then a.note_switch now else a) := by
  rw [Axis.pick, if_neg (by simp [hm]), if_neg (by simp [hm]),
    if_neg (by simp [hm, h3]), if_neg h4, if_neg (by simp [hm]),
    if_neg (by simp [hm]), if_pos hm, if_neg (by simp [hd])]

lemma pick_eq_prio_fail (a : Axis) (now : ℚ) (hm : a.mode = Mode.priority)
    (h3 : a.timeout_neutral_active now = false) (h4 : ¬ a.pressed.length ≤ 1)
    (hd : a.debounce_ok now = false) :
    a.pick now = (mapOf a.keys (fun k => a.out k), a) := by
  rw [Axis.pick, if_neg (by simp [hm]), if_neg (by simp [hm]),
    if_neg (by simp [hm, h3]), if_neg h4, if_neg (by simp [hm]),
    if_neg (by simp [hm]), if_neg (by simp [hm]), if_pos hm,
    if_pos (by simp [hd])]

lemma pick_eq_prio_some (a : Axis) (now : ℚ) (hm : a.mode = Mode.priority)
    (h3 : a.timeout_neutral_active now = false) (h4 : ¬ a.pressed.length ≤ 1)
    (hd : a.debounce_ok now = true) (k : Nat)
    (hf : a.priority.find? (fun k => a.pressed.contains k) = some k) :
    a.pick now = (mapOf a.keys (fun x => x == k),
      if ¬ a.out k then a.note_switch now else a) := by
  rw [Axis.pick, if_neg (by simp [hm]), if_neg (by simp [hm]),
    if_neg (by simp [hm, h3]), if_neg h4, if_neg (by simp [hm]),
    if_neg (by simp [hm]), if_neg (by simp [hm]), if_pos hm,
    if_neg (by simp [hd]), hf]

lemma pick_eq_prio_none (a : Axis) (now : ℚ) (hm : a.mode = Mode.priority)
    (h3 : a.timeout_neutral_active now = false) (h4 : ¬ a.pressed.length ≤ 1)
    (hd : a.debounce_ok now = true)
    (hf : a.priority.find? (fun k => a.pressed.contains k) = none) :
    a.pick now = (mapOf a.keys (fun k => k == a.chosenRecent a.pressed),
      if ¬ a.out (a.chosenRecent a.pressed) then a.note_switch now else a) := by
  rw [Axis.pick, if_neg (by simp [hm]), if_neg (by simp [hm]),
    if_neg (by simp [hm, h3]), if_neg h4, if_neg (by simp [hm]),
    if_neg (by simp [hm]), if_neg (by simp [hm]), if_pos hm,
    if_neg (by simp [hd]), hf]

lemma pick_eq_recent_fail (a : Axis) (now : ℚ) (hm : a.mode = Mode.recent)
    (h3 : a.timeout_neutral_active now = false) (h4 : ¬ a.pressed.length ≤ 1)
    (hd : a.debounce_ok now = false) :
    a.pick now = (mapOf a.keys (fun k => a.out k), a) := by
  rw [Axis.pick, if_neg (by simp [hm]), if_neg (by simp [hm]),
    if_neg (by simp [hm, h3]), if_neg h4, if_neg (by simp [hm]),
    if_neg (by simp [hm]), if_neg (by simp [hm]), if_neg (by simp [hm]),
    if_pos (by simp [hd])]

lemma pick_eq_recent_go (a : Axis) (now : ℚ) (hm : a.mode = Mode.recent)
    (h3 : a.timeout_neutral_active now = false) (h4 : ¬ a.pressed.length ≤ 1)
    (hd : a.debounce_ok now = true) :
    a.pick now = (mapOf a.keys (fun k => k == a.chosenRecent a.pressed),
      if ¬ a.out (a.chosenRecent a.pressed) then a.note_switch now else a) := by
  rw [Axis.pick, if_neg (by simp [hm]), if_neg (by simp [hm]),
    if_neg (by simp [hm, h3]), if_neg h4, if_neg (by simp [hm]),
    if_neg (by simp [hm]), if_neg (by simp [hm]), if_neg (by simp [hm]),
    if_neg (by simp [hd])]

/-- C6 counterexample: with a swap-delay configured, two pick() calls at the
same instant with no intervening on_key (and no out update between them)
return different maps, because the first call records a switch time that
makes the second call fail its debounce check and return the stale out map. -/
theorem pick_not_idempotent_cex :
    (((initAxis [0, 1] Mode.recent [] 10 0).runEdges
        [(0, true, 100), (1, true, 200), (0, false, 201), (0, true, 202)]).pick
        300).1 = [(0, true), (1, false)] ∧
    ((((initAxis [0, 1] Mode.recent [] 10 0).runEdges
        [(0, true, 100), (1, true, 200), (0, false, 201), (0, true, 202)]).pick
        300).2.pick 300).1 = [(0, false), (1, true)] ∧
    ([(0, true), (1, false)] : List (Nat × Bool)) ≠ [(0, false), (1, true)] := by
  refine ⟨by decide, by decide, by decide⟩

/-- C6 (amended): calling pick() twice at the same instant with no
intervening on_key returns the same output map both times, provided `out` is
updated from the first call's result between the calls, as the main loop
does. -/
theorem pick_idempotent_with_out_update (a : Axis) (now : ℚ) :
    (((a.pick now).2.applyOut (a.pick now).1).pick now).1 = (a.pick now).1 := by
  refine pick_elim a now
    (P := fun x => ((x.2.applyOut x.1).pick now).1 = x.1)
    ?_ ?_ ?_ ?_ ?_ ?_ ?_ ?_ ?_ ?_ ?_ ?_ ?_ ?_ ?_ ?_
  -- combine
  · intro h
    rw [pick_eq_combine _ now (by simpa using h)]
    rfl
  -- toggle
  · intro h
    rw [pick_eq_toggle _ now (by simpa using h)]
    rfl
  -- neutral, 2+ pressed
  · intro h1 h2 h3 h4
    rw [pick_eq_neutral2 _ now (by simpa using h1) (by simpa using h2)
      (by simpa using h3) (by simpa using h4)]
    rfl
  -- neutral mirror
  · intro h1 h2 h3 h4
    rw [pick_eq_neutral1 _ now (by simpa using h1) (by simpa using h2)
      (by simpa using h3) (by simpa using h4)]
    rfl
  -- simple mirror
  · intro h1 h2 h3 h4
    rw [pick_eq_mirror _ now (by simpa using h1) (by simpa using h2)
      (by simpa using h3) (by simpa using h4)]
    rfl
  -- sticky: keep winner
  · intro hm hto h5 w hw
    have hwk : w ∈ a.keys := List.mem_of_find?_eq_some hw
    have hw' : a.keys.find? (fun k =>
        lookupD (mapOf a.keys (fun x => x == w)) k (a.out k)) = some w := by
      rw [find?_congr_mem (fun k hk => lookupD_mapOf _ _ _ _ hk)]
      exact find?_beq_self hwk
    rw [pick_eq_sticky_keep _ now (by simpa using hm) (by simpa using hto)
      (by simpa using h5) w hw' (by simpa using any_down_of_conflict a h5)]
    rfl
  -- sticky: no winner, debounce holds output back
  · intro hm hto h5 hw hd
    have hw' : a.keys.find? (fun k =>
        lookupD (mapOf a.keys (fun _ => false)) k (a.out k)) = none := by
      rw [find?_congr_mem (fun k hk => lookupD_mapOf _ _ _ _ hk)]
      exact find?_false a.keys
    rw [pick_eq_sticky_none_fail _ now (by simpa using hm) (by simpa using hto)
      (by simpa using h5) hw' (by simpa using hd)]
    rfl
  -- sticky: no winner, new winner chosen; it then persists as the winner
  · intro hm hto h5 hw hd
    have hne : a.pressed ≠ [] := fun hnil => h5 (by simp [hnil])
    have hcm : a.chosenRecent a.pressed ∈ a.keys :=
      pressed_subset_keys a (chosenRecent_mem a hne)
    have hw' : a.keys.find? (fun k =>
        lookupD (mapOf a.keys (fun x => x == a.chosenRecent a.pressed)) k
          ((a.note_switch now).out k)) = some (a.chosenRecent a.pressed) := by
      rw [find?_congr_mem (fun k hk => lookupD_mapOf _ _ _ _ hk)]
      exact find?_beq_self hcm
    rw [pick_eq_sticky_keep _ now (by simpa using hm) (by simpa using hto)
      (by simpa using h5) _ hw' (by simpa using any_down_of_conflict a h5)]
    rfl
  -- first
  · intro hm hto h5
    rw [pick_eq_first _ now (by simpa using hm) (by simpa using hto)
      (by simpa using h5)]
    rfl
  -- invert, debounce fail: out copy maps to itself
  · intro hm hto h5 hd
    rw [pick_eq_invert_fail _ now (by simpa using hm) (by simpa using hto)
      (by simpa using h5) (by simpa using hd)]
    exact mapOf_lookup a.keys (fun k => a.out k) (fun k => a.out k)
  -- invert, switch chosen
  · intro hm hto h5 hd
    by_cases hoc : a.out ((minByKey a.t0 a.pressed).getD 0) = true
    · rw [if_neg (not_not_intro hoc)]
      rw [pick_eq_invert_go _ now (by simpa using hm) (by simpa using hto)
        (by simpa using h5) (by simpa using hd)]
      rfl
    · rw [if_pos hoc]
      by_cases hsd : a.swap_delay ≤ 0
      · rw [pick_eq_invert_go _ now (by simpa using hm) (by simpa using hto)
          (by simpa using h5)
          (by rw [applyOut_debounce]; exact note_debounce_nonpos a now hsd)]
        rfl
      · rw [pick_eq_invert_fail _ now (by simpa using hm) (by simpa using hto)
          (by simpa using h5)
          (by rw [applyOut_debounce]; exact note_debounce_pos a now hsd)]
        exact mapOf_lookup a.keys
          (fun k => k == (minByKey a.t0 a.pressed).getD 0)
          (fun k => (a.note_switch now).out k)
  -- priority, debounce fail
  · intro hm hto h5 hd
    rw [pick_eq_prio_fail _ now (by simpa using hm) (by simpa using hto)
      (by simpa using h5) (by simpa using hd)]
    exact mapOf_lookup a.keys (fun k => a.out k) (fun k => a.out k)
  -- priority, listed key held
  · intro hm hto h5 hd k hf
    by_cases hoc : a.out k = true
    · rw [if_neg (not_not_intro hoc)]
      rw [pick_eq_prio_some _ now (by simpa using hm) (by simpa using hto)
        (by simpa using h5) (by simpa using hd) k (by simpa using hf)]
      rfl
    · rw [if_pos hoc]
      by_cases hsd : a.swap_delay ≤ 0
      · rw [pick_eq_prio_some _ now (by simpa using hm) (by simpa using hto)
          (by simpa using h5)
          (by rw [applyOut_debounce]; exact note_debounce_nonpos a now hsd)
          k (by simpa using hf)]
        rfl
      · rw [pick_eq_prio_fail _ now (by simpa using hm) (by simpa using hto)
          (by simpa using h5)
          (by rw [applyOut_debounce]; exact note_debounce_pos a now hsd)]
        exact mapOf_lookup a.keys (fun x => x == k)
          (fun x => (a.note_switch now).out x)
  -- priority, fallback to recent
  · intro hm hto h5 hd hf
    by_cases hoc : a.out (a.chosenRecent a.pressed) = true
    · rw [if_neg (not_not_intro hoc)]
      rw [pick_eq_prio_none _ now (by simpa using hm) (by simpa using hto)
        (by simpa using h5) (by simpa using hd) (by simpa using hf)]
      rfl
    · rw [if_pos hoc]
      by_cases hsd : a.swap_delay ≤ 0
      · rw [pick_eq_prio_none _ now (by simpa using hm) (by simpa using hto)
          (by simpa using h5)
          (by rw [applyOut_debounce]; exact note_debounce_nonpos a now hsd)
          (by simpa using hf)]
        rfl
      · rw [pick_eq_prio_fail _ now (by simpa using hm) (by simpa using hto)
          (by simpa using h5)
          (by rw [applyOut_debounce]; exact note_debounce_pos a now hsd)]
        exact mapOf_lookup a.keys (fun k => k == a.chosenRecent a.pressed)
          (fun k => (a.note_switch now).out k)
  -- recent, debounce fail
  · intro hm hto h5 hd
    rw [pick_eq_recent_fail _ now (by simpa using hm) (by simpa using hto)
      (by simpa using h5) (by simpa using hd)]
    exact mapOf_lookup a.keys (fun k => a.out k) (fun k => a.out k)
  -- recent, switch chosen
  · intro hm hto h5 hd
    by_cases hoc : a.out (a.chosenRecent a.pressed) = true
    · rw [if_neg (not_not_intro hoc)]
      rw [pick_eq_recent_go _ now (by simpa using hm) (by simpa using hto)
        (by simpa using h5) (by simpa using hd)]
      rfl
    · rw [if_pos hoc]
      by_cases hsd : a.swap_delay ≤ 0
      · rw [pick_eq_recent_go _ now (by simpa using hm) (by simpa using hto)
          (by simpa using h5)
          (by rw [applyOut_debounce]; exact note_debounce_nonpos a now hsd)]
        rfl
      · rw [pick_eq_recent_fail _ now (by simpa using hm) (by simpa using hto)
          (by simpa using h5)
          (by rw [applyOut_debounce]; exact note_debounce_pos a now hsd)]
        exact mapOf_lookup a.keys (fun k => k == a.chosenRecent a.pressed)
          (fun k => (a.note_switch now).out k)

/-- C2 counterexample: sticky mode, keys 0 and 1.  Key 0 wins, key 1 is
pressed (output stays 0), then key 0 is released while key 1 is still held:
the output switches to key 1 even though not all axis keys were released. -/
theorem sticky_not_until_full_release_cex :
    ((initAxis [0, 1] Mode.sticky [] 0 0).runEdges
        [(0, true, 1), (1, true, 2)]).out 0 = true ∧
    ((initAxis [0, 1] Mode.sticky [] 0 0).runEdges
        [(0, true, 1), (1, true, 2)]).out 1 = false ∧
    ((initAxis [0, 1] Mode.sticky [] 0 0).runEdges
        [(0, true, 1), (1, true, 2), (0, false, 3)]).down 1 = true ∧
    ((initAxis [0, 1] Mode.sticky [] 0 0).runEdges
        [(0, true, 1), (1, true, 2), (0, false, 3)]).out 0 = false ∧
    ((initAxis [0, 1] Mode.sticky [] 0 0).runEdges
        [(0, true, 1), (1, true, 2), (0, false, 3)]).out 1 = true := by
  refine ⟨by decide, by decide, by decide, by decide, by decide⟩

/-- C2 (amended): in sticky mode with no neutral-timeout, while at least two
keys of the group are held, pick() keeps returning the current winner (the
`out`-on key), regardless of which keys were pressed or released since; the
winner can only change once fewer than two keys are held. -/
theorem sticky_winner_kept_while_conflict (a : Axis) (now : ℚ) (w : Nat)
    (hm : a.mode = Mode.sticky) (htn : a.timeout_neutral ≤ 0)
    (hw : a.keys.find? (fun k => a.out k) = some w)
    (h2 : ¬ a.pressed.length ≤ 1) :
    (a.pick now).1 = mapOf a.keys (fun k => k == w) := by
  have hto : a.timeout_neutral_active now = false := by
    unfold Axis.timeout_neutral_active
    rw [if_pos htn]
  rw [pick_eq_sticky_keep a now hm hto h2 w hw (any_down_of_conflict a h2)]

/-- Witness for C2's amended theorem at the state of the counterexample's
first two edges. -/
theorem sticky_winner_kept_while_conflict_witness :
    (((initAxis [0, 1] Mode.sticky [] 0 0).runEdges
        [(0, true, 1), (1, true, 2)]).pick 5).1
      = mapOf ((initAxis [0, 1] Mode.sticky [] 0 0).runEdges
          [(0, true, 1), (1, true, 2)]).keys (fun k => k == 0) :=
  sticky_winner_kept_while_conflict _ 5 0 (by decide) (by decide) (by decide)
    (by decide)

/-- All axis state agrees except `mode` and `last_switch_time`. -/
def SameCore (s t : Axis) : Prop :=
  s.keys = t.keys ∧ s.down = t.down ∧ s.out = t.out ∧ s.last = t.last ∧
  s.t0 = t.t0 ∧ s.priority = t.priority ∧ s.swap_delay = t.swap_delay ∧
  s.timeout_neutral = t.timeout_neutral ∧ s.conflict_start = t.conflict_start ∧
  s.toggle_active = t.toggle_active

lemma debounce_of_nonpos (a : Axis) (now : ℚ) (h : a.swap_delay ≤ 0) :
    a.debounce_ok now = true := by
  unfold Axis.debounce_ok
  rw [if_pos h]

lemma on_key_swap_delay (a : Axis) (c : Nat) (d : Bool) (t : ℚ) :
    (a.on_key c d t).swap_delay = a.swap_delay := by
  unfold Axis.on_key
  dsimp only
  split_ifs <;> rfl

set_option maxHeartbeats 1600000 in
lemma on_key_sameCore {s t : Axis} (c : Nat) (b : Bool) (ti : ℚ)
    (h : SameCore s t) (hs : s.mode ≠ Mode.toggle)
    (ht : t.mode ≠ Mode.toggle) :
    SameCore (s.on_key c b ti) (t.on_key c b ti) := by
  obtain ⟨hk, hd, ho, hl, ht0, hp, hsd, htn, hcs, hta⟩ := h
  unfold Axis.on_key
  rw [hk, hd, ho, hl, ht0, hp, hsd, htn, hcs, hta]
  refine ⟨?_, ?_, ?_, ?_, ?_, ?_, ?_, ?_, ?_, ?_⟩ <;>
    (dsimp only
     simp only [Axis.pressedCount, Axis.pressed]
     try dsimp only
     split_ifs <;>
       first
         | rfl
         | assumption
         | (exact absurd (by assumption : s.mode = Mode.toggle) hs)
         | (exact absurd (by assumption : t.mode = Mode.toggle) ht))

lemma pick_fst_invert_first (s t : Axis) (now : ℚ) (h : SameCore s t)
    (hms : s.mode = Mode.invert) (hmt : t.mode = Mode.first)
    (hsd : s.swap_delay ≤ 0) :
    (s.pick now).1 = (t.pick now).1 := by
  obtain ⟨hk, hd, ho, hl, ht0, hp, hsd', htn, hcs, hta⟩ := h
  have hpr : s.pressed = t.pressed := by
    unfold Axis.pressed
    rw [hk, hd]
  have hto : s.timeout_neutral_active now = t.timeout_neutral_active now := by
    unfold Axis.timeout_neutral_active Axis.pressedCount Axis.pressed
    rw [hk, hd, htn, hcs]
  by_cases h2 : s.timeout_neutral_active now = true
  · by_cases hlen : s.pressed.length ≥ 2
    · rw [pick_eq_neutral2 s now (by simp [hms]) (by simp [hms])
          (Or.inr h2) hlen,
        pick_eq_neutral2 t now (by simp [hmt]) (by simp [hmt])
          (Or.inr (by rw [← hto]; exact h2)) (by rw [← hpr]; exact hlen)]
      dsimp only
      rw [hk]
    · rw [pick_eq_neutral1 s now (by simp [hms]) (by simp [hms])
          (Or.inr h2) hlen,
        pick_eq_neutral1 t now (by simp [hmt]) (by simp [hmt])
          (Or.inr (by rw [← hto]; exact h2)) (by rw [← hpr]; exact hlen)]
      dsimp only
      rw [hk, hpr]
  · have h2f : s.timeout_neutral_active now = false := by
      cases hx : s.timeout_neutral_active now
      · rfl
      · exact absurd hx h2
    have h2tf : t.timeout_neutral_active now = false := by
      rw [← hto]; exact h2f
    by_cases hlen : s.pressed.length ≤ 1
    · rw [pick_eq_mirror s now (by simp [hms]) (by simp [hms])
          (by simp [hms, h2f]) hlen,
        pick_eq_mirror t now (by simp [hmt]) (by simp [hmt])
          (by simp [hmt, h2tf]) (by rw [← hpr]; exact hlen)]
      dsimp only
      rw [hk, hpr]
    · rw [pick_eq_invert_go s now hms h2f hlen (debounce_of_nonpos s now hsd),
        pick_eq_first t now hmt h2tf (by rw [← hpr]; exact hlen)]
      dsimp only
      rw [hk, ht0, hpr]

lemma step_swap_delay (a : Axis) (c : Nat) (d : Bool) (t : ℚ) :
    (a.step c d t).1.swap_delay = a.swap_delay := by
  unfold Axis.step
  dsimp only
  rcases pick_snd (a.on_key c d t) t with h | h <;>
    rw [h] <;> simp [on_key_swap_delay, Axis.applyOut, Axis.note_switch]

lemma step_sameCore (s t : Axis) (c : Nat) (b : Bool) (ti : ℚ)
    (h : SameCore s t) (hms : s.mode = Mode.invert)
    (hmt : t.mode = Mode.first) (hsd : s.swap_delay ≤ 0) :
    SameCore (s.step c b ti).1 (t.step c b ti).1 := by
  have h1 : SameCore (s.on_key c b ti) (t.on_key c b ti) :=
    on_key_sameCore c b ti h (by simp [hms]) (by simp [hmt])
  have hms1 : (s.on_key c b ti).mode = Mode.invert := by
    rw [on_key_mode]; exact hms
  have hmt1 : (t.on_key c b ti).mode = Mode.first := by
    rw [on_key_mode]; exact hmt
  have hsd1 : (s.on_key c b ti).swap_delay ≤ 0 := by
    rw [on_key_swap_delay]; exact hsd
  have hmap := pick_fst_invert_first _ _ ti h1 hms1 hmt1 hsd1
  unfold Axis.step
  dsimp only
  obtain ⟨hk, hd, ho, hl, ht0, hp, hsd', htn, hcs, hta⟩ := h1
  rcases pick_snd (s.on_key c b ti) ti with hs2 | hs2 <;>
    rcases pick_snd (t.on_key c b ti) ti with ht2 | ht2 <;>
    rw [hs2, ht2] <;>
    refine ⟨?_, ?_, ?_, ?_, ?_, ?_, ?_, ?_, ?_, ?_⟩ <;>
    simp only [applyOut_keys, applyOut_down, applyOut_out_fn, applyOut_last,
      applyOut_t0, applyOut_priority, applyOut_sd, applyOut_tn, applyOut_cs,
      applyOut_toggle, note_switch_keys, note_switch_down, note_switch_out,
      note_last, note_t0, note_priority, note_sd, note_tn, note_cs,
      note_toggle, hmap, hk, hd, ho, hl, ht0, hp, hsd', htn, hcs, hta]

lemma runEdges_swap_delay (a : Axis) (edges : List (Nat × Bool × ℚ)) :
    (a.runEdges edges).swap_delay = a.swap_delay := by
  induction edges generalizing a with
  | nil => rfl
  | cons e rest ih =>
    obtain ⟨c, d, t⟩ := e
    rw [Axis.runEdges, ih, step_swap_delay]

lemma runEdges_sameCore (s t : Axis) (edges : List (Nat × Bool × ℚ))
    (h : SameCore s t) (hms : s.mode = Mode.invert)
    (hmt : t.mode = Mode.first) (hsd : s.swap_delay ≤ 0) :
    SameCore (s.runEdges edges) (t.runEdges edges) := by
  induction edges generalizing s t with
  | nil => exact h
  | cons e rest ih =>
    obtain ⟨c, b, ti⟩ := e
    rw [Axis.runEdges, Axis.runEdges]
    exact ih _ _ (step_sameCore s t c b ti h hms hmt hsd)
      (by rw [step_mode]; exact hms) (by rw [step_mode]; exact hmt)
      (by rw [step_swap_delay]; exact hsd)

/-- C7 counterexample: with a swap-delay of 10s configured, after the edge
sequence press 0,1,2,3 then release 0 (winner moves to key 1) then release 1
one second later, invert mode holds the debounced stale output (key 1, which
is no longer even held) while first mode outputs key 2. -/
theorem invert_first_differ_cex :
    (((initAxis [0, 1, 2, 3] Mode.invert [] 10 0).runEdges
        [(0, true, 100), (1, true, 101), (2, true, 102), (3, true, 103),
         (0, false, 120), (1, false, 121)]).pick 121).1
      = [(0, false), (1, true), (2, false), (3, false)] ∧
    (((initAxis [0, 1, 2, 3] Mode.first [] 10 0).runEdges
        [(0, true, 100), (1, true, 101), (2, true, 102), (3, true, 103),
         (0, false, 120), (1, false, 121)]).pick 121).1
      = [(0, false), (1, false), (2, true), (3, false)] ∧
    ([(0, false), (1, true), (2, false), (3, false)] : List (Nat × Bool))
      ≠ [(0, false), (1, false), (2, true), (3, false)] := by
  refine ⟨by decide, by decide, by decide⟩

/-- C7 (amended): with no swap-delay configured, the invert and first modes
compute identical pick outputs after every sequence of on_key edges; with a
swap-delay they can differ, because only invert holds the previous output
during the debounce window. -/
theorem invert_first_equiv_no_swap_delay (keys prio : List Nat) (tn : ℚ)
    (edges : List (Nat × Bool × ℚ)) (now : ℚ) :
    (((initAxis keys Mode.invert prio 0 tn).runEdges edges).pick now).1
      = (((initAxis keys Mode.first prio 0 tn).runEdges edges).pick now).1 := by
  have hsc : SameCore (initAxis keys Mode.invert prio 0 tn)
      (initAxis keys Mode.first prio 0 tn) :=
    ⟨rfl, rfl, rfl, rfl, rfl, rfl, rfl, rfl, rfl, rfl⟩
  have hrun := runEdges_sameCore _ _ edges hsc rfl rfl (le_refl 0)
  exact pick_fst_invert_first _ _ now hrun
    (by rw [runEdges_mode]; rfl)
    (by rw [runEdges_mode]; rfl)
    (by rw [runEdges_swap_delay]; exact le_refl 0)

/-- Witness for C8 at a concrete combine-mode axis. -/
theorem combine_out_mirrors_down_witness :
    (initAxis [0, 1] Mode.combine [] 0 0).mode = Mode.combine ∧
    0 ∈ (initAxis [0, 1] Mode.combine [] 0 0).keys ∧
    ((initAxis [0, 1] Mode.combine [] 0 0).step 0 true 1).1.out 0
      = ((initAxis [0, 1] Mode.combine [] 0 0).step 0 true 1).1.down 0 :=
  ⟨rfl, by decide,
   combine_out_mirrors_down (initAxis [0, 1] Mode.combine [] 0 0) 0 true 1 rfl
     0 (by decide)⟩

/-! ### The SPACE speed-ramp scheduler of src/macros/strafer.py

`_space_start`, `_space_stop`, `_space_prepare_segment` and `_space_tick`
drive `current_speed` through the configured checkpoint schedule.  The
Python attribute `seg_target` holds either `None`, a float target, or the
`("__WAIT__", t)` tuple; it is modelled by `SegTarget`.  `perf_counter`
instants are passed in explicitly. -/

/-- Python's `clamp`. -/
def clampQ (v lo hi : ℚ) : ℚ :=
  if v < lo then lo else if v > hi then hi else v

/-- The three shapes of `seg_target`: `None`, the `("__WAIT__", t)` tuple,
and a numeric target. -/
inductive SegTarget
  | idle
  | wait (t : ℚ)
  | val (v : ℚ)
deriving DecidableEq, Repr

/-- The ramp-relevant configuration of `StraferMacro`: speed bounds, the
sorted schedule, the tick interval, and `SPACE_ALLOW_INCREASE`. -/
structure SCfg where
  min_speed : ℚ
  max_speed : ℚ
  tick_s : ℚ
  allow_up : Bool
  sched : List (ℚ × ℚ)
deriving Repr

/-- The mutable ramp state of `StraferMacro` (`__init__` lines 100-112). -/
structure Strafer where
  current_speed : ℚ
  space_down : Bool
  space_press_t : ℚ
  space_original_speed : ℚ
  seg_idx : Int
  seg_start_t : ℚ
  seg_end_t : ℚ
  seg_start_speed : ℚ
  seg_target : SegTarget
  seg_ticks_total : Nat
  seg_tick_idx : Nat
  next_tick_time : ℚ
deriving DecidableEq, Repr

/-- `StraferMacro._space_reset`. -/
def space_reset (s : Strafer) : Strafer :=
  { s with seg_idx := -1, seg_start_t := 0, seg_end_t := 0,
           seg_start_speed := 0, seg_target := SegTarget.idle,
           seg_ticks_total := 0, seg_tick_idx := 0, next_tick_time := 0 }

/-- `StraferMacro._space_prepare_segment(now)`.  The Python method recurses
when a checkpoint is skipped under the no-increase policy; `gas` bounds that
recursion and every caller passes `sched.length + 1`, which is more than the
number of remaining checkpoints. -/
def space_prepare (cfg : SCfg) : Nat → ℚ → Strafer → Strafer
  | 0, _, s => s
  | gas + 1, now, s =>
    let next_ix := s.seg_idx + 1
    if next_ix ≥ (cfg.sched.length : Int) then
      { s with seg_target := SegTarget.idle }
    else
      match cfg.sched[next_ix.toNat]? with
      | none => { s with seg_target := SegTarget.idle }
      | some (stage_rel_t, stage_target) =>
        let stage_abs_start := s.space_press_t + stage_rel_t
        if now < stage_abs_start then
          -- not yet time for this stage: wait for it
          { s with seg_start_t := stage_abs_start, seg_end_t := stage_abs_start,
                   seg_target := SegTarget.wait stage_abs_start,
                   next_tick_time := stage_abs_start }
        else
          let segment_end :=
            match cfg.sched[next_ix.toNat + 1]? with
            | some (next_rel_t, _) => s.space_press_t + next_rel_t
            | none => now + cfg.tick_s
          if ¬ cfg.allow_up ∧ stage_target > s.current_speed then
            -- no-increase policy: skip this checkpoint
            space_prepare cfg gas now { s with seg_idx := next_ix }
          else
            let s2 := { s with seg_idx := next_ix,
                               seg_start_t := stage_abs_start,
                               seg_end_t := segment_end,
                               seg_start_speed := s.current_speed,
                               seg_target := SegTarget.val stage_target }
            let total_dur := max 0 (segment_end - stage_abs_start)
            let ticks_total :=
              max 1 (Rat.floor (total_dur / max cfg.tick_s (1 / 1000000))).toNat
            let s3 :=
              if now ≤ stage_abs_start then
                { s2 with seg_ticks_total := ticks_total, seg_tick_idx := 0,
                          next_tick_time := stage_abs_start + cfg.tick_s }
              else
                let elapsed := now - stage_abs_start
                let already :=
                  (Rat.floor (elapsed / max cfg.tick_s (1 / 1000000))).toNat
                let ti := min already ticks_total
                { s2 with seg_ticks_total := ticks_total, seg_tick_idx := ti,
                          next_tick_time :=
                            stage_abs_start + ((ti : ℚ) + 1) * cfg.tick_s }
            if ¬ cfg.allow_up ∧ s3.seg_start_speed ≤ stage_target + 1 / 1000000000 then
              -- already at/below target: skip to the next stage
              space_prepare cfg gas now s3
            else s3

/-- `StraferMacro._space_start()` at instant `now`. -/
def space_start (cfg : SCfg) (now : ℚ) (s : Strafer) : Strafer :=
  match cfg.sched with
  | [] => s
  | (t0v, s0) :: _ =>
    let s1 := { s with space_press_t := now, space_down := true }
    -- save the original speed before starting the ramp
    let s2 := if s1.space_original_speed = 0 then
        { s1 with space_original_speed := s1.current_speed }
      else s1
    let s3 := space_reset s2
    let s4 :=
      if t0v ≤ 1 / 1000000 then
        let tgt := if cfg.allow_up ∨ s0 ≤ s3.current_speed then s0
                   else s3.current_speed
        { s3 with current_speed := clampQ tgt cfg.min_speed cfg.max_speed,
                  seg_idx := 0 }
      else { s3 with seg_idx := -1 }
    space_prepare cfg (cfg.sched.length + 1) now s4

/-- `StraferMacro._space_stop()`. -/
def space_stop (cfg : SCfg) (s : Strafer) : Strafer :=
  let s1 := { s with space_down := false }
  -- restore the original speed
  let s2 := if s1.space_original_speed > 0 then
      { s1 with
        current_speed := clampQ s1.space_original_speed cfg.min_speed cfg.max_speed,
        space_original_speed := 0 }
    else s1
  space_reset s2

/-- One iteration of the while-loop body in `_space_tick`. -/
def tickBody (cfg : SCfg) (tgt : ℚ) (s : Strafer) : Strafer :=
  let start := s.seg_start_speed
  let new_speed :=
    if ¬ cfg.allow_up then
      let total_drop := max 0 (start - tgt)
      let step := total_drop / (s.seg_ticks_total : ℚ)
      let ns := start - step * ((s.seg_tick_idx : ℚ) + 1)
      if ns < tgt then tgt else ns
    else
      let step := (tgt - start) / (s.seg_ticks_total : ℚ)
      let ns := start + step * ((s.seg_tick_idx : ℚ) + 1)
      if s.seg_tick_idx + 1 = s.seg_ticks_total then tgt else ns
  { s with current_speed := clampQ new_speed cfg.min_speed cfg.max_speed,
           seg_tick_idx := s.seg_tick_idx + 1,
           next_tick_time := s.next_tick_time + cfg.tick_s }

/-- The while-loop of `_space_tick`.  Each iteration increments
`seg_tick_idx` toward `seg_ticks_total`, so the fuel
`seg_ticks_total - seg_tick_idx` is exactly the maximal number of
iterations; passing it makes this the same loop. -/
def space_tick_go (cfg : SCfg) (now : ℚ) : Nat → Strafer → Strafer
  | 0, s => s
  | fuel + 1, s =>
    match s.seg_target with
    | SegTarget.val tgt =>
      if s.seg_tick_idx < s.seg_ticks_total ∧ now ≥ s.next_tick_time then
        space_tick_go cfg now fuel (tickBody cfg tgt s)
      else s
    | _ => s

/-- `StraferMacro._space_tick(now)`. -/
def space_tick (cfg : SCfg) (now : ℚ) (s : Strafer) : Strafer :=
  if s.space_down = false then s
  else
    match s.seg_target with
    | SegTarget.wait t =>
      if now ≥ t then space_prepare cfg (cfg.sched.length + 1) now s else s
    | SegTarget.idle =>
      if s.seg_idx + 1 < (cfg.sched.length : Int) then
        space_prepare cfg (cfg.sched.length + 1) now s
      else s
    | SegTarget.val _ =>
      let s1 := space_tick_go cfg now (s.seg_ticks_total - s.seg_tick_idx) s
      match s1.seg_target with
      | SegTarget.val tgt =>
        if s1.seg_tick_idx ≥ s1.seg_ticks_total then
          -- snap exactly to the stage target, then prepare the next stage
          space_prepare cfg (cfg.sched.length + 1) now
            { s1 with current_speed := clampQ tgt cfg.min_speed cfg.max_speed }
        else s1
      | _ => s1

lemma clampQ_eq (v lo hi : ℚ) (h1 : lo ≤ v) (h2 : v ≤ hi) :
    clampQ v lo hi = v := by
  unfold clampQ
  rw [if_neg (not_lt.mpr h1), if_neg (not_lt.mpr h2)]

lemma space_prepare_pres (cfg : SCfg) (gas : Nat) (now : ℚ) (s : Strafer) :
    (space_prepare cfg gas now s).current_speed = s.current_speed ∧
    (space_prepare cfg gas now s).space_original_speed
      = s.space_original_speed ∧
    (space_prepare cfg gas now s).space_down = s.space_down := by
  induction gas generalizing s with
  | zero => exact ⟨rfl, rfl, rfl⟩
  | succ gas ih =>
    unfold space_prepare
    dsimp only
    repeat' split
    all_goals first | exact ⟨rfl, rfl, rfl⟩ | exact ih _

lemma space_tick_go_pres (cfg : SCfg) (now : ℚ) (fuel : Nat) (s : Strafer) :
    (space_tick_go cfg now fuel s).space_original_speed
      = s.space_original_speed ∧
    (space_tick_go cfg now fuel s).space_down = s.space_down := by
  induction fuel generalizing s with
  | zero => exact ⟨rfl, rfl⟩
  | succ fuel ih =>
    unfold space_tick_go
    repeat' split
    all_goals first | exact ⟨rfl, rfl⟩ | exact ih _

lemma space_tick_pres (cfg : SCfg) (now : ℚ) (s : Strafer) :
    (space_tick cfg now s).space_original_speed = s.space_original_speed ∧
    (space_tick cfg now s).space_down = s.space_down := by
  unfold space_tick
  dsimp only
  repeat' split
  all_goals first
    | exact ⟨rfl, rfl⟩
    | exact ⟨(space_prepare_pres _ _ _ _).2.1, (space_prepare_pres _ _ _ _).2.2⟩
    | exact ⟨(space_tick_go_pres _ _ _ _).1, (space_tick_go_pres _ _ _ _).2⟩
    | exact ⟨((space_prepare_pres _ _ _ _).2.1).trans
               (space_tick_go_pres _ _ _ _).1,
             ((space_prepare_pres _ _ _ _).2.2).trans
               (space_tick_go_pres _ _ _ _).2⟩

lemma ticks_pres (cfg : SCfg) (times : List ℚ) (s : Strafer) :
    ((times.foldl (fun st t => space_tick cfg t st) s).space_original_speed
      = s.space_original_speed) ∧
    ((times.foldl (fun st t => space_tick cfg t st) s).space_down
      = s.space_down) := by
  induction times generalizing s with
  | nil => exact ⟨rfl, rfl⟩
  | cons t rest ih =>
    rw [List.foldl_cons]
    exact ⟨((ih _).1).trans (space_tick_pres cfg t s).1,
           ((ih _).2).trans (space_tick_pres cfg t s).2⟩

lemma space_start_orig (cfg : SCfg) (now : ℚ) (s : Strafer)
    (hsched : cfg.sched ≠ []) (h0 : s.space_original_speed = 0) :
    (space_start cfg now s).space_original_speed = s.current_speed := by
  unfold space_start
  cases hsc : cfg.sched with
  | nil => exact absurd hsc hsched
  | cons p rest =>
    obtain ⟨t0v, s0⟩ := p
    dsimp only
    refine ((space_prepare_pres _ _ _ _).2.1).trans ?_
    rw [if_pos h0]
    split_ifs <;> rfl

/-- C3: for every activation followed by any sequence of ramp ticks and then
a deactivation, the deactivation restores the scalar speed to exactly the
value recorded at activation time and clears all segment state.  The
hypotheses say the current speed is positive and within the configured
bounds (as the clamped speed always is), and that no stale saved value is
pending (`space_original_speed = 0`, which `_space_stop` re-establishes). -/
theorem ramp_release_restores (cfg : SCfg) (s : Strafer) (t_act : ℚ)
    (ticks : List ℚ) (hsched : cfg.sched ≠ [])
    (h0 : s.space_original_speed = 0)
    (hlo : cfg.min_speed ≤ s.current_speed)
    (hhi : s.current_speed ≤ cfg.max_speed)
    (hpos : 0 < s.current_speed) :
    (space_stop cfg (ticks.foldl (fun st t => space_tick cfg t st)
        (space_start cfg t_act s))).current_speed = s.current_speed ∧
    (space_stop cfg (ticks.foldl (fun st t => space_tick cfg t st)
        (space_start cfg t_act s))).space_down = false ∧
    (space_stop cfg (ticks.foldl (fun st t => space_tick cfg t st)
        (space_start cfg t_act s))).seg_idx = -1 ∧
    (space_stop cfg (ticks.foldl (fun st t => space_tick cfg t st)
        (space_start cfg t_act s))).seg_target = SegTarget.idle ∧
    (space_stop cfg (ticks.foldl (fun st t => space_tick cfg t st)
        (space_start cfg t_act s))).seg_tick_idx = 0 ∧
    (space_stop cfg (ticks.foldl (fun st t => space_tick cfg t st)
        (space_start cfg t_act s))).seg_ticks_total = 0 ∧
    (space_stop cfg (ticks.foldl (fun st t => space_tick cfg t st)
        (space_start cfg t_act s))).next_tick_time = 0 ∧
    (space_stop cfg (ticks.foldl (fun st t => space_tick cfg t st)
        (space_start cfg t_act s))).seg_start_t = 0 ∧
    (space_stop cfg (ticks.foldl (fun st t => space_tick cfg t st)
        (space_start cfg t_act s))).seg_end_t = 0 ∧
    (space_stop cfg (ticks.foldl (fun st t => space_tick cfg t st)
        (space_start cfg t_act s))).seg_start_speed = 0 ∧
    (space_stop cfg (ticks.foldl (fun st t => space_tick cfg t st)
        (space_start cfg t_act s))).space_original_speed = 0 := by
  have horig : (ticks.foldl (fun st t => space_tick cfg t st)
      (space_start cfg t_act s)).space_original_speed = s.current_speed :=
    ((ticks_pres cfg ticks _).1).trans (space_start_orig cfg t_act s hsched h0)
  unfold space_stop
  dsimp only
  rw [if_pos (show (ticks.foldl (fun st t => space_tick cfg t st)
      (space_start cfg t_act s)).space_original_speed > 0 by
    rw [horig]; exact hpos)]
  refine ⟨?_, rfl, rfl, rfl, rfl, rfl, rfl, rfl, rfl, rfl, rfl⟩
  show clampQ (ticks.foldl (fun st t => space_tick cfg t st)
      (space_start cfg t_act s)).space_original_speed cfg.min_speed
      cfg.max_speed = s.current_speed
  rw [horig]
  exact clampQ_eq _ _ _ hlo hhi

/-- The ramp configuration named by C4: schedule [(0,2500),(2,2200),(4,1800)],
tick interval 1 second, the default bounds and no-increase policy. -/
def rampCfg : SCfg :=
  { min_speed := 100, max_speed := 20000, tick_s := 1, allow_up := false,
    sched := [(0, 2500), (2, 2200), (4, 1800)] }

/-- Fresh strafer state with a current speed of 3000 (above the first
checkpoint, so the offset-0 checkpoint applies even under no-increase). -/
def strafer0 : Strafer :=
  { current_speed := 3000, space_down := false, space_press_t := 0,
    space_original_speed := 0, seg_idx := -1, seg_start_t := 0, seg_end_t := 0,
    seg_start_speed := 0, seg_target := SegTarget.idle, seg_ticks_total := 0,
    seg_tick_idx := 0, next_tick_time := 0 }

/-- Witness for C3 at the concrete C4 configuration, with ramp ticks at
t = 1, 2, 3 before release. -/
theorem ramp_release_restores_witness :
    rampCfg.sched ≠ [] ∧ strafer0.space_original_speed = 0 ∧
    rampCfg.min_speed ≤ strafer0.current_speed ∧
    strafer0.current_speed ≤ rampCfg.max_speed ∧
    (0 : ℚ) < strafer0.current_speed ∧
    (space_stop rampCfg ([1, 2, 3].foldl
        (fun st t => space_tick rampCfg t st)
        (space_start rampCfg 0 strafer0))).current_speed
      = strafer0.current_speed :=
  ⟨by decide, by decide, by decide, by decide, by decide,
   (ramp_release_restores rampCfg strafer0 0 [1, 2, 3] (by decide) (by decide)
     (by decide) (by decide) (by decide)).1⟩

/-- C4 counterexample: activating the ramp at t = 0 does set the value to
2500 immediately, but the value is still 2500 at t = 2 (after the tick at
t = 2 has been processed), not 2200: the code treats a checkpoint's time as
the start of the ramp toward that checkpoint's target, so 2200 is only
reached at t = 4. -/
theorem ramp_not_2200_at_t2_cex :
    (space_start rampCfg 0 strafer0).current_speed = 2500 ∧
    (space_tick rampCfg 1 (space_start rampCfg 0 strafer0)).current_speed
      = 2500 ∧
    (space_tick rampCfg 2 (space_tick rampCfg 1
        (space_start rampCfg 0 strafer0))).current_speed = 2500 ∧
    ((2500 : ℚ) ≠ 2200) := by
  refine ⟨by decide, by decide, by decide, by decide⟩

/-- C4 (amended): with the schedule [(0,2500),(2,2200),(4,1800)], tick
interval 1s and initial value 3000, activation at t = 0 immediately sets the
value to 2500; the value stays 2500 through t = 2, ramps through 2350 at
t = 3, first equals the 2200 target at t = 4 (each checkpoint's target is
reached at the following checkpoint's time, the last one tick later), and
never drops below the final target 1800 before 1800 is reached at t = 5. -/
theorem ramp_schedule_run :
    (space_start rampCfg 0 strafer0).current_speed = 2500 ∧
    (space_tick rampCfg 1 (space_start rampCfg 0 strafer0)).current_speed
      = 2500 ∧
    (space_tick rampCfg 2 (space_tick rampCfg 1
        (space_start rampCfg 0 strafer0))).current_speed = 2500 ∧
    (space_tick rampCfg 3 (space_tick rampCfg 2 (space_tick rampCfg 1
        (space_start rampCfg 0 strafer0)))).current_speed = 2350 ∧
    (space_tick rampCfg 4 (space_tick rampCfg 3 (space_tick rampCfg 2
        (space_tick rampCfg 1
          (space_start rampCfg 0 strafer0))))).current_speed = 2200 ∧
    (space_tick rampCfg 5 (space_tick rampCfg 4 (space_tick rampCfg 3
        (space_tick rampCfg 2 (space_tick rampCfg 1
          (space_start rampCfg 0 strafer0)))))).current_speed = 1800 ∧
    (1800 : ℚ) ≤ 2350 ∧ (1800 : ℚ) ≤ 2200 ∧ (1800 : ℚ) ≤ 2500 := by
  refine ⟨by decide, by decide, by decide, by decide, by decide, by decide,
    by decide, by decide, by decide⟩

/-! ### The motion integrator's velocity update (strafer.py, `_move_loop`)

Python floats are modelled as real numbers; `EASINGS` becomes the `Easing`
enumeration with `applyEasing`. -/

/-- The keys of the `EASINGS` table. -/
inductive Easing
  | linear | cubic_in_out | exp_in_out
deriving DecidableEq, Repr

/-- `ease_linear`. -/
noncomputable def ease_linear (t : ℝ) : ℝ := t

/-- `ease_cubic_in_out`. -/
noncomputable def ease_cubic_in_out (t : ℝ) : ℝ :=
  if t < 1/2 then 4 * t ^ 3 else 1 - (-2 * t + 2) ^ 3 / 2

/-- `ease_exp_in_out`. -/
noncomputable def ease_exp_in_out (t : ℝ) : ℝ :=
  if t ≤ 0 then 0
  else if 1 ≤ t then 1
  else if t < 1/2 then 1/2 * (2 : ℝ) ^ (20 * t - 10)
  else 1 - 1/2 * (2 : ℝ) ^ (-20 * t + 10)

/-- The `EASINGS` lookup. -/
noncomputable def applyEasing : Easing → ℝ → ℝ
  | Easing.linear => ease_linear
  | Easing.cubic_in_out => ease_cubic_in_out
  | Easing.exp_in_out => ease_exp_in_out

/-- One frame of the velocity update of `_move_loop` (lines 760-767):
time-constant selection, the smoothing factor
`alpha = eased(1 - e^(-dt / max tc 1e-4))`, the relaxation step
`vel += (desired - vel) * alpha`, and the deadzone snap to 0 when the
desired velocity is 0. -/
noncomputable def velStep (accel decel deadzone : ℝ) (es : Easing)
    (desired vel dt : ℝ) : ℝ :=
  let tc := if |desired| > |vel| then accel else decel
  let alpha := applyEasing es (1 - Real.exp (-dt / max tc (1/10000)))
  let v := vel + (desired - vel) * alpha
  if desired = 0 ∧ |v| ≤ deadzone then 0 else v

/-- The velocity after a sequence of frames of widths `dts`. -/
noncomputable def velIter (accel decel deadzone : ℝ) (es : Easing)
    (desired v0 : ℝ) : List ℝ → ℝ
  | [] => v0
  | dt :: rest =>
    velIter accel decel deadzone es desired
      (velStep accel decel deadzone es desired v0 dt) rest

lemma easing_mem_Icc (es : Easing) (t : ℝ) (h : t ∈ Set.Icc (0:ℝ) 1) :
    applyEasing es t ∈ Set.Icc (0:ℝ) 1 := by
  obtain ⟨h0, h1⟩ := h
  cases es with
  | linear => exact ⟨h0, h1⟩
  | cubic_in_out =>
    unfold applyEasing ease_cubic_in_out
    dsimp only
    split_ifs with hc
    · constructor
      · positivity
      · have h3 : t ^ 3 ≤ (1/2 : ℝ) ^ 3 := pow_le_pow_left h0 (le_of_lt hc) 3
        nlinarith [h3]
    · have hu0 : (0:ℝ) ≤ -2 * t + 2 := by linarith
      have hu1 : -2 * t + 2 ≤ 1 := by linarith
      have h3 : (-2 * t + 2) ^ 3 ≤ 1 := pow_le_one₀ hu0 hu1
      have h30 : (0:ℝ) ≤ (-2 * t + 2) ^ 3 := pow_nonneg hu0 3
      constructor <;> [linarith; linarith]
  | exp_in_out =>
    unfold applyEasing ease_exp_in_out
    dsimp only
    split_ifs with he0 he1 hc
    · exact ⟨le_refl 0, by norm_num⟩
    · exact ⟨by norm_num, le_refl 1⟩
    · have hexp : (2:ℝ) ^ (20 * t - 10) ≤ 1 :=
        Real.rpow_le_one_of_one_le_of_nonpos (by norm_num) (by linarith)
      have hpos : (0:ℝ) < (2:ℝ) ^ (20 * t - 10) :=
        Real.rpow_pos_of_pos (by norm_num) _
      constructor <;> [positivity; linarith]
    · have hexp : (2:ℝ) ^ (-20 * t + 10) ≤ 1 :=
        Real.rpow_le_one_of_one_le_of_nonpos (by norm_num) (by linarith)
      have hpos : (0:ℝ) < (2:ℝ) ^ (-20 * t + 10) :=
        Real.rpow_pos_of_pos (by norm_num) _
      constructor <;> [linarith; linarith]

lemma smoothing_mem_Icc (tc dt : ℝ) (hdt : 0 < dt) :
    1 - Real.exp (-dt / max tc (1/10000)) ∈ Set.Icc (0:ℝ) 1 := by
  have hden : (0:ℝ) < max tc (1/10000) :=
    lt_of_lt_of_le (by norm_num) (le_max_right _ _)
  have harg : -dt / max tc (1/10000) < 0 :=
    div_neg_of_neg_of_pos (neg_neg_of_pos hdt) hden
  constructor
  · have hle : Real.exp (-dt / max tc (1/10000)) ≤ 1 :=
      calc Real.exp (-dt / max tc (1/10000)) ≤ Real.exp 0 :=
            Real.exp_le_exp.mpr (le_of_lt harg)
        _ = 1 := Real.exp_zero
    linarith
  · have hgt : (0:ℝ) < Real.exp (-dt / max tc (1/10000)) := Real.exp_pos _
    linarith

lemma velStep_props (accel decel deadzone : ℝ) (es : Easing)
    (desired vel dt : ℝ) (hdt : 0 < dt) :
    |desired - velStep accel decel deadzone es desired vel dt|
      ≤ |desired - vel| ∧
    (vel ≤ desired →
      velStep accel decel deadzone es desired vel dt ≤ desired) ∧
    (desired ≤ vel →
      desired ≤ velStep accel decel deadzone es desired vel dt) := by
  unfold velStep
  dsimp only
  set tc := if |desired| > |vel| then accel else decel with htc
  set α := applyEasing es (1 - Real.exp (-dt / max tc (1/10000))) with hα
  have hmem : α ∈ Set.Icc (0:ℝ) 1 :=
    easing_mem_Icc es _ (smoothing_mem_Icc tc dt hdt)
  obtain ⟨h0, h1⟩ := hmem
  split_ifs with hsnap
  · obtain ⟨hd0, _⟩ := hsnap
    subst hd0
    refine ⟨by simp, fun _ => le_refl 0, fun _ => le_refl 0⟩
  · have hkey : desired - (vel + (desired - vel) * α)
        = (desired - vel) * (1 - α) := by ring
    refine ⟨?_, ?_, ?_⟩
    · rw [hkey, abs_mul]
      have habs : |1 - α| ≤ 1 := by
        rw [abs_le]
        constructor <;> linarith
      calc |desired - vel| * |1 - α| ≤ |desired - vel| * 1 :=
            mul_le_mul_of_nonneg_left habs (abs_nonneg _)
        _ = |desired - vel| := mul_one _
    · intro hle
      nlinarith [mul_nonneg (sub_nonneg.mpr hle) (sub_nonneg.mpr h1)]
    · intro hge
      nlinarith [mul_nonneg (sub_nonneg.mpr hge) (sub_nonneg.mpr h1)]

lemma velIter_append (accel decel deadzone : ℝ) (es : Easing)
    (desired v0 : ℝ) (l1 l2 : List ℝ) :
    velIter accel decel deadzone es desired v0 (l1 ++ l2)
      = velIter accel decel deadzone es desired
          (velIter accel decel deadzone es desired v0 l1) l2 := by
  induction l1 generalizing v0 with
  | nil => rfl
  | cons dt rest ih =>
    rw [List.cons_append, velIter, velIter, ih]

lemma velIter_le (accel decel deadzone : ℝ) (es : Easing)
    (desired v0 : ℝ) (dts : List ℝ) (hdts : ∀ dt ∈ dts, 0 < dt)
    (h : v0 ≤ desired) :
    velIter accel decel deadzone es desired v0 dts ≤ desired := by
  induction dts generalizing v0 with
  | nil => exact h
  | cons dt rest ih =>
    exact ih _ (fun d hd => hdts d (List.mem_cons_of_mem dt hd))
      ((velStep_props accel decel deadzone es desired v0 dt
        (hdts dt (List.mem_cons_self dt rest))).2.1 h)

lemma velIter_ge (accel decel deadzone : ℝ) (es : Easing)
    (desired v0 : ℝ) (dts : List ℝ) (hdts : ∀ dt ∈ dts, 0 < dt)
    (h : desired ≤ v0) :
    desired ≤ velIter accel decel deadzone es desired v0 dts := by
  induction dts generalizing v0 with
  | nil => exact h
  | cons dt rest ih =>
    exact ih _ (fun d hd => hdts d (List.mem_cons_of_mem dt hd))
      ((velStep_props accel decel deadzone es desired v0 dt
        (hdts dt (List.mem_cons_self dt rest))).2.2 h)

/-- C5: with the desired velocity held constant and noise disabled, the
per-frame velocity update makes the distance to the desired velocity
non-increasing from each frame to the next, and the velocity never
overshoots past the desired velocity, for every sequence of frame widths
bounded below by a positive minimum frame time and every configured easing
curve. -/
theorem motion_monotone_no_overshoot (accel decel deadzone : ℝ) (es : Easing)
    (desired v0 mft : ℝ) (dts : List ℝ)
    (hmft : 0 < mft) (hdts : ∀ dt ∈ dts, mft ≤ dt) :
    (∀ n : Nat,
      |desired - velIter accel decel deadzone es desired v0 (dts.take (n+1))|
        ≤ |desired -
            velIter accel decel deadzone es desired v0 (dts.take n)|) ∧
    (v0 ≤ desired →
      velIter accel decel deadzone es desired v0 dts ≤ desired) ∧
    (desired ≤ v0 →
      desired ≤ velIter accel decel deadzone es desired v0 dts) := by
  have hpos : ∀ dt ∈ dts, (0:ℝ) < dt :=
    fun dt hd => lt_of_lt_of_le hmft (hdts dt hd)
  refine ⟨?_, velIter_le _ _ _ _ _ _ dts hpos,
    velIter_ge _ _ _ _ _ _ dts hpos⟩
  intro n
  by_cases hn : n < dts.length
  · have htake : dts.take (n + 1) = dts.take n ++ [dts[n]] := by
      rw [List.take_succ, List.getElem?_eq_getElem hn]
      rfl
    rw [htake, velIter_append]
    have hmem : dts[n] ∈ dts := List.getElem_mem hn
    have hstep := (velStep_props accel decel deadzone es desired
      (velIter accel decel deadzone es desired v0 (dts.take n)) dts[n]
      (hpos _ hmem)).1
    simpa [velIter] using hstep
  · have hlen : dts.length ≤ n := le_of_not_lt hn
    rw [List.take_of_length_le hlen, List.take_of_length_le (le_trans hlen (Nat.le_succ n))]

/-- Witness for C5 at a concrete configuration. -/
theorem motion_monotone_no_overshoot_witness :
    (0:ℝ) < 1 ∧ (∀ dt ∈ [(1:ℝ)], (1:ℝ) ≤ dt) ∧
    (∀ n : Nat,
      |(0:ℝ) - velIter 1 1 0 Easing.linear 0 0 ([(1:ℝ)].take (n+1))|
        ≤ |(0:ℝ) - velIter 1 1 0 Easing.linear 0 0 ([(1:ℝ)].take n)|) :=
  ⟨one_pos, by simp,
   (motion_monotone_no_overshoot 1 1 0 Easing.linear 0 0 1 [1] one_pos
     (by simp)).1⟩

/-! ### Shutdown emission (C9) and the event loop's repeat handling (C10) -/

/-- Events and device operations a shutdown path performs, in order. -/
inductive SinkAct
  | key (code : Nat) (value : Nat)
  | syn
  | closeDev (id : Nat)
deriving DecidableEq, Repr

/-- `SOCDCleaner._cleanup` (socd.py lines 263-286): for every axis a key-up
is written for every key whose `out` entry is on, then a syn, then the
devices are released and the virtual output device (id 0) is closed. -/
def socdCleanupActs (axes : List Axis) : List SinkAct :=
  ((axes.map (fun a =>
      (a.keys.filter (fun k => a.out k)).map (fun k => SinkAct.key k 0))).flatten)
    ++ [SinkAct.syn, SinkAct.closeDev 0]

/-- `StraferMacro.stop` (strafer.py lines 790-819): the move thread is
joined, the input devices are ungrabbed and closed, and the two virtual
devices (vkb = 0, vmouse = 1) are closed.  No key event is written at any
point — in particular the exclusively held key `held_key_code` is never
released before the virtual keyboard is closed. -/
def straferStopActs (held_key_code : Option Nat) : List SinkAct :=
  [SinkAct.closeDev 0, SinkAct.closeDev 1]

/-- C9: on shutdown, the SOCD cleaner's `_cleanup` emits a key-up for every
axis key it reports held before closing the virtual device (shown here
after pressing key 30, so `out 30` is on) — but `StraferMacro.stop` closes
its virtual keyboard without emitting any key-up for its exclusively held
key (held_key_code = KEY_A = 30), contradicting the claim for the strafer
half of the system. -/
theorem shutdown_release_divergence :
    socdCleanupActs [(initAxis [30, 32] Mode.recent [] 0 0).runEdges
        [(30, true, 1)]]
      = [SinkAct.key 30 0, SinkAct.syn, SinkAct.closeDev 0] ∧
    SinkAct.key 30 0 ∉ straferStopActs (some 30) := by
  refine ⟨by decide, by decide⟩

/-- Is `code` registered to any axis (membership in `bykey`)? -/
def keyInAxes (axes : List Axis) (code : Nat) : Bool :=
  axes.any (fun a => a.keys.contains code)

/-- One EV_KEY event through `SOCDCleaner.loop` (lines 228-247): axis keys
with value 0/1 are processed by every axis that contains them; repeats
(value 2) on axis keys are ignored entirely; non-axis keys are mirrored to
the virtual device unchanged, including repeats.  Returns the updated axes
and the key events written. -/
def loopKeyEvent (axes : List Axis) (code val : Nat) (now : ℚ) :
    List Axis × List (Nat × Nat) :=
  if keyInAxes axes code then
    if val = 0 ∨ val = 1 then
      let stepped := axes.map (fun a =>
        if a.keys.contains code then a.step code (val == 1) now else (a, []))
      (stepped.map (fun p => p.1),
       (stepped.map (fun p =>
          p.2.map (fun kv => (kv.1, if kv.2 then 1 else 0)))).flatten)
    else (axes, [])
  else (axes, [(code, val)])

/-- C10: an auto-repeat event (value 2) on a key belonging to an axis group
leaves all axis state unchanged and emits nothing; key events on keys not in
any axis group are forwarded unchanged, including repeats. -/
theorem repeat_events_ignored (axes : List Axis) (code : Nat) (now : ℚ) :
    (keyInAxes axes code = true →
      loopKeyEvent axes code 2 now = (axes, [])) ∧
    (keyInAxes axes code = false →
      ∀ val, loopKeyEvent axes code val now = (axes, [(code, val)])) := by
  constructor
  · intro h
    unfold loopKeyEvent
    rw [if_pos h, if_neg (by norm_num)]
  · intro h val
    unfold loopKeyEvent
    rw [if_neg (by simp [h])]

/-- Witness for C10 at a concrete axis list. -/
theorem repeat_events_ignored_witness :
    keyInAxes [initAxis [30, 32] Mode.recent [] 0 0] 30 = true ∧
    loopKeyEvent [initAxis [30, 32] Mode.recent [] 0 0] 30 2 5
      = ([initAxis [30, 32] Mode.recent [] 0 0], []) ∧
    keyInAxes [initAxis [30, 32] Mode.recent [] 0 0] 99 = false ∧
    loopKeyEvent [initAxis [30, 32] Mode.recent [] 0 0] 99 2 5
      = ([initAxis [30, 32] Mode.recent [] 0 0], [(99, 2)]) :=
  ⟨by decide,
   (repeat_events_ignored [initAxis [30, 32] Mode.recent [] 0 0] 30 5).1
     (by decide),
   by decide,
   (repeat_events_ignored [initAxis [30, 32] Mode.recent [] 0 0] 99 5).2
     (by decide) 2⟩

end Macrohub
